import Mathlib

/-!
# Lane racer: road generation, scrolling, speed and collision

A shallow embedding of `src/main.c`.

Modelling conventions.

* `float`/`double` values (`Vector2` coordinates, `carSpeedVertical`, the clock and the
  frame time) are rationals `ℚ`; a C conversion from a floating value to `int`
  is `toInt`, truncation toward zero.  The definitions that carry the names of main.c read
  every floating-point operation as exact.  The definitions whose names end in `F32` are the
  same functions with every floating-point operation rounded (binary32 for `float`,
  binary64 for `double`, each operation rounded on its own); the statements that depend on
  the outcome of a rounded operation, namely the collision test at the ends of the tolerant
  interval and the amount a road scrolls, are made on them.
* `int` values are `Int`; every integer the program computes from a road on the screen
  is far inside the 32-bit range, so no wrap-around is modelled.
* The doubly linked `RoadNode` list is the `List Road` of its roads, head first.
  `malloc` is taken to succeed.  Dereferencing `NULL` is the result `none`.
* The raylib collaborators are inputs: the outcome of each `GetRandomValue` call of one
  `CreateRandomRoad` execution is a field of `Draws`; `GetTime`, `GetFrameTime` and the key
  states polled during one `UpdateGame` call are the fields of `Input`.
-/

namespace LaneRacer

/-! ## Constants (main.c lines 5-50) -/

def CAR_WIDTH : Int := 50
def CAR_HEIGHT : Int := 50

/-- Min width of any randomly generated road. -/
def MIN_ROAD_WIDTH : Int := CAR_WIDTH * 4

/-- Max width of any randomly generated road. -/
def MAX_ROAD_WIDTH : Int := CAR_WIDTH * 6

/-- Min width of the gap linking two consecutive roads: `CAR_WIDTH * 1.7`, a `double`. -/
def MIN_GAP_WIDTH : ℚ := (CAR_WIDTH : ℚ) * (17 / 10)

def ROAD_COUNT_IN_SCREEN : Nat := 3

def COLLISION_TOLERANCE : Int := 5

def screenWidth : Int := 1280
def screenHeight : Int := 800

/-- Integer division of two `int`s: `screenHeight / ROAD_COUNT_IN_SCREEN`. -/
def roadHeight : Int := Int.tdiv screenHeight (ROAD_COUNT_IN_SCREEN : Int)

def carSpeedVerticalBase : ℚ := 240
def carSpeedHorizontal : Int := 300

/-- Conversion of a floating value to `int`: truncation toward zero. -/
def toInt (q : ℚ) : Int := Int.tdiv q.num (q.den : Int)

/-! ## Data (main.c lines 21-57) -/

structure Vector2 where
  x : ℚ
  y : ℚ
deriving DecidableEq

structure Road where
  topLeft : Vector2
  topRight : Vector2
  height : Int
deriving DecidableEq

structure Car where
  pos : Vector2
deriving DecidableEq

/-- The globals of main.c together with the road list owned by `main`. -/
structure Game where
  roadList : List Road
  car : Car
  carSpeedVertical : ℚ
  lastScore : Int
  highScore : Int
  isPaused : Bool
deriving DecidableEq

/-- Outcomes of the three `GetRandomValue` calls one execution of `CreateRandomRoad` makes,
in program order: the width, the side, and the x position of the branch taken. -/
structure Draws where
  width : Int
  side : Int
  pos : Int
deriving DecidableEq

/-- What the collaborators return during one `UpdateGame` call. -/
structure Input where
  time : ℚ
  frameTime : ℚ
  keySpace : Bool
  keyA : Bool
  keyD : Bool
  draws : Nat → Draws

/-! ## Road construction (main.c lines 197-322) -/

def CreateRoad (topLeft topRight : Vector2) : Road :=
  { topLeft := topLeft, topRight := topRight, height := roadHeight }

/-- `int prevHalfWidth = (prevRoad->topRight.x - prevRoad->topLeft.x) / 2;` -/
def prevHalfWidth (prevRoad : Road) : Int :=
  toInt ((prevRoad.topRight.x - prevRoad.topLeft.x) / 2)

/-- The value of `shouldCreateRoadOnLeft` after the clamping `if`/`else if`
(main.c lines 241-248), given the outcome `side` of `GetRandomValue(0,1)`. -/
def shouldCreateRoadOnLeft (prevRoad : Road) (side : Int) : Int :=
  if prevRoad.topLeft.x ≤ (MAX_ROAD_WIDTH : ℚ) - MIN_GAP_WIDTH then 0
  else if (screenWidth : ℚ) - prevRoad.topRight.x ≤ (MAX_ROAD_WIDTH : ℚ) - MIN_GAP_WIDTH then 1
  else side

/-- Arguments `(min, max)` of the `GetRandomValue` call of the left branch (line 252). -/
def leftRange (prevRoad : Road) : Int × Int :=
  (toInt (prevRoad.topLeft.x + MIN_GAP_WIDTH),
   toInt (prevRoad.topLeft.x + (prevHalfWidth prevRoad : ℚ)))

/-- Arguments `(min, max)` of the `GetRandomValue` call of the right branch (line 257). -/
def rightRange (prevRoad : Road) : Int × Int :=
  (toInt (prevRoad.topLeft.x + (prevHalfWidth prevRoad : ℚ)),
   toInt (prevRoad.topRight.x - MIN_GAP_WIDTH))

/-- Arguments of the position draw that `CreateRandomRoad prevRoad` makes
when the side draw came out as `side`. -/
def posRange (prevRoad : Road) (side : Int) : Int × Int :=
  if shouldCreateRoadOnLeft prevRoad side ≠ 0 then leftRange prevRoad else rightRange prevRoad

/-- Each draw lies in the range that `CreateRandomRoad prevRoad` requested for it. -/
def DrawsInRange (prevRoad : Road) (d : Draws) : Prop :=
  (MIN_ROAD_WIDTH ≤ d.width ∧ d.width ≤ MAX_ROAD_WIDTH) ∧
  (0 ≤ d.side ∧ d.side ≤ 1) ∧
  ((posRange prevRoad d.side).1 ≤ d.pos ∧ d.pos ≤ (posRange prevRoad d.side).2)

instance (prevRoad : Road) (d : Draws) : Decidable (DrawsInRange prevRoad d) := by
  unfold DrawsInRange; infer_instance

def CreateRandomRoad (prevRoad : Road) (d : Draws) : Road :=
  let randomizedRoadWidth : Int := d.width
  let topLeftX : Int :=
    if shouldCreateRoadOnLeft prevRoad d.side ≠ 0 then d.pos - randomizedRoadWidth else d.pos
  let topRightX : Int :=
    if shouldCreateRoadOnLeft prevRoad d.side ≠ 0 then d.pos else d.pos + randomizedRoadWidth
  let topLeftY : Int := toInt (prevRoad.topLeft.y - (roadHeight : ℚ))
  let topRightY : Int := topLeftY
  CreateRoad { x := topLeftX, y := topLeftY } { x := topRightX, y := topRightY }

/-- The road built by the empty-list branch of `CreateAddRandomizedRoadNodeToRoadList`
(lines 286-298): centred, twice `MIN_ROAD_WIDTH` wide, four road heights tall. -/
def firstRoad : Road :=
  let topLeftX : Int := Int.tdiv screenWidth 2 - MIN_ROAD_WIDTH
  let topLeftY : Int := screenHeight - roadHeight * 4
  let topRightX : Int := Int.tdiv screenWidth 2 + MIN_ROAD_WIDTH
  let topRightY : Int := screenHeight - roadHeight * 4
  { CreateRoad { x := topLeftX, y := topLeftY } { x := topRightX, y := topRightY } with
    height := roadHeight * 4 }

def CreateAddRandomizedRoadNodeToRoadList (roadList : List Road) (d : Draws) : List Road :=
  match roadList.getLast? with
  | none => [firstRoad]
  | some prev => roadList ++ [CreateRandomRoad prev d]

/-- `none` when the list is empty or has one node: line 328 writes through
`(*roadListPtr)->next`. -/
def RemoveHeadRoadNodeFromRoadList : List Road → Option (List Road)
  | _ :: newHead :: rest => some (newHead :: rest)
  | _ => none

/-! ## Scrolling (main.c lines 335-355) -/

/-- Body of the `while` loop of `UpdateRoadPositions` for one node. -/
def moveRoad (carSpeedVertical frameTime : ℚ) (road : Road) : Road :=
  { road with
    topLeft := { road.topLeft with y := road.topLeft.y + carSpeedVertical * frameTime }
    topRight := { road.topRight with y := road.topRight.y + carSpeedVertical * frameTime } }

def UpdateRoadPositions (roadList : List Road) (carSpeedVertical frameTime : ℚ) (d : Draws) :
    Option (List Road) :=
  match roadList with
  | [] => none
  | curr :: _ =>
    let recycled : Option (List Road) :=
      if curr.topLeft.y ≥ (screenHeight : ℚ) then
        (RemoveHeadRoadNodeFromRoadList roadList).map
          (fun l => CreateAddRandomizedRoadNodeToRoadList l d)
      else some roadList
    recycled.map (List.map (moveRoad carSpeedVertical frameTime))

/-! ## Game control (main.c lines 113-153, 182-195, 425-475) -/

/-- The `for` loop of `InitGame`; iteration `i` uses the draws `ds i`. -/
def initRoads (roadList : List Road) (ds : Nat → Draws) : List Road :=
  (List.range (ROAD_COUNT_IN_SCREEN * 2)).foldl
    (fun l i => CreateAddRandomizedRoadNodeToRoadList l (ds i)) roadList

def InitGame (g : Game) (time : ℚ) (ds : Nat → Draws) : Game :=
  { roadList := initRoads g.roadList ds
    car := { pos := { x := (Int.tdiv screenWidth 2 - Int.tdiv CAR_WIDTH 2 : Int),
                      y := (screenHeight - CAR_HEIGHT : Int) } }
    carSpeedVertical := carSpeedVerticalBase
    highScore := if g.lastScore > g.highScore then g.lastScore else g.highScore
    lastScore := toInt time
    isPaused := false }

def UnloadGame (g : Game) : Game := { g with roadList := [] }

def RestartGame (g : Game) (time : ℚ) (ds : Nat → Draws) : Game :=
  InitGame (UnloadGame g) time ds

def UpdateCarPosition (g : Game) (keyA keyD : Bool) (frameTime : ℚ) : Game :=
  if keyA then
    { g with car := { pos := { g.car.pos with x := g.car.pos.x - carSpeedHorizontal * frameTime } } }
  else if keyD then
    { g with car := { pos := { g.car.pos with x := g.car.pos.x + carSpeedHorizontal * frameTime } } }
  else g

/-- The two assignments made when a collision is found (lines 442-443, 452-453). -/
def collide (g : Game) (time : ℚ) : Game :=
  { g with isPaused := true, lastScore := toInt (time - (g.lastScore : ℚ)) }

/-- `none` when the list has fewer than two nodes (`rodeList->next->road`). -/
def CheckCarCollision (g : Game) (time : ℚ) : Option Game :=
  match g.roadList with
  | currRoad :: nextRoad :: _ =>
    if g.car.pos.x ≤ currRoad.topLeft.x - (COLLISION_TOLERANCE : ℚ) ∨
        g.car.pos.x + (CAR_WIDTH : ℚ) ≥ currRoad.topRight.x + (COLLISION_TOLERANCE : ℚ) then
      some (collide g time)
    else if currRoad.topLeft.y - (COLLISION_TOLERANCE : ℚ) ≥ ((screenHeight - CAR_HEIGHT : Int) : ℚ) ∧
        (g.car.pos.x ≤ nextRoad.topLeft.x - (COLLISION_TOLERANCE : ℚ) ∨
          g.car.pos.x + (CAR_WIDTH : ℚ) ≥ nextRoad.topRight.x + (COLLISION_TOLERANCE : ℚ)) then
      some (collide g time)
    else some g
  | _ => none

/-- Lines 150-151: `if (carSpeedVertical <= 540) carSpeedVertical += (0.06);` -/
def limitSpeed (carSpeedVertical : ℚ) : ℚ :=
  if carSpeedVertical ≤ 540 then carSpeedVertical + 6 / 100 else carSpeedVertical

def UpdateGame (g : Game) (inp : Input) : Option Game :=
  if g.isPaused then
    if inp.keySpace then some (RestartGame g inp.time inp.draws) else some g
  else
    (CheckCarCollision g inp.time).bind fun g1 =>
      let g2 := UpdateCarPosition g1 inp.keyA inp.keyD inp.frameTime
      (UpdateRoadPositions g2.roadList g2.carSpeedVertical inp.frameTime (inp.draws 0)).map
        fun roads => { g2 with roadList := roads, carSpeedVertical := limitSpeed g2.carSpeedVertical }

/-! ## Derived notions used in the statements -/

/-- Width of a road: `topRight.x - topLeft.x`. -/
def Road.width (r : Road) : ℚ := r.topRight.x - r.topLeft.x

/-- Horizontal overlap of two roads. -/
def overlap (a b : Road) : ℚ := min a.topRight.x b.topRight.x - max a.topLeft.x b.topLeft.x

/-- The draws that `CreateAddRandomizedRoadNodeToRoadList roadList` consumes lie in the
ranges it requests; on the empty list it draws nothing. -/
def addDrawsInRange (roadList : List Road) (d : Draws) : Prop :=
  match roadList.getLast? with
  | none => True
  | some prev => DrawsInRange prev d

/-- Every draw made by the loop of `InitGame`, run over the iteration indices `is`
from `roadList`, lies in its requested range. -/
def loopDrawsInRange (ds : Nat → Draws) : List Nat → List Road → Prop
  | [], _ => True
  | i :: is, roadList =>
    addDrawsInRange roadList (ds i) ∧
      loopDrawsInRange ds is (CreateAddRandomizedRoadNodeToRoadList roadList (ds i))

def initDrawsInRange (roadList : List Road) (ds : Nat → Draws) : Prop :=
  loopDrawsInRange ds (List.range (ROAD_COUNT_IN_SCREEN * 2)) roadList

/-- The draws made by `UpdateRoadPositions roadList` (none unless the head is recycled)
lie in their requested ranges. -/
def updateDrawsInRange (roadList : List Road) (d : Draws) : Prop :=
  match roadList with
  | [] => True
  | curr :: rest => curr.topLeft.y ≥ (screenHeight : ℚ) → addDrawsInRange rest d

/-- Road lists reachable from bootstrap by any number of `UpdateRoadPositions` calls, at any
speed and frame time, all random draws lying in their requested ranges. -/
inductive Reachable : List Road → Prop
  | bootstrap (ds : Nat → Draws) : initDrawsInRange [] ds → Reachable (initRoads [] ds)
  | update (roadList roadList' : List Road) (carSpeedVertical frameTime : ℚ) (d : Draws) :
      Reachable roadList → updateDrawsInRange roadList d →
      UpdateRoadPositions roadList carSpeedVertical frameTime d = some roadList' →
      Reachable roadList'

/-- Road lists reachable from bootstrap or a restart by any number of
`UpdateRoadPositions` calls, with no condition on the random draws. -/
inductive ReachableAnyDraws : List Road → Prop
  | bootstrap (g : Game) (time : ℚ) (ds : Nat → Draws) :
      g.roadList = [] → ReachableAnyDraws (InitGame g time ds).roadList
  | restart (g : Game) (time : ℚ) (ds : Nat → Draws) :
      ReachableAnyDraws (RestartGame g time ds).roadList
  | update (roadList roadList' : List Road) (carSpeedVertical frameTime : ℚ) (d : Draws) :
      ReachableAnyDraws roadList →
      UpdateRoadPositions roadList carSpeedVertical frameTime d = some roadList' →
      ReachableAnyDraws roadList'

/-- Both x coordinates of a road are whole numbers. -/
def Road.integralX (r : Road) : Prop :=
  ∃ a b : Int, r.topLeft.x = a ∧ r.topRight.x = b

/-- Invariant of the road list: whole-number x coordinates, and consecutive roads overlap
by at least `MIN_GAP_WIDTH`. -/
def roadsOk (roadList : List Road) : Prop :=
  (∀ r ∈ roadList, r.integralX) ∧
    List.Chain' (fun a b => MIN_GAP_WIDTH ≤ overlap a b) roadList

/-- The `n`-th road of a bootstrapped list: the first road, then each road generated from
the one before it with the draws of its loop iteration. -/
def bootRoad (ds : Nat → Draws) : Nat → Road
  | 0 => firstRoad
  | n + 1 => CreateRandomRoad (bootRoad ds n) (ds (n + 1))

/-- Successive `UpdateGame` calls, one per input. -/
def runGame (g : Game) : List Input → Option Game
  | [] => some g
  | inp :: rest => (UpdateGame g inp).bind fun g' => runGame g' rest

/-- Draws under which bootstrap alternates right and left of the previous road. -/
def zigzagDraws (i : Nat) : Draws :=
  if i % 2 = 1 then { width := 200, side := 0, pos := 640 }
  else { width := 200, side := 1, pos := 725 }

/-- A road with x range `a` to `b` whose top edge is at height `y`. -/
def roadAt (a b : Int) (y : ℚ) : Road :=
  { topLeft := { x := a, y := y }, topRight := { x := b, y := y }, height := roadHeight }

/-- A running game with the car at `x` on the given road list, scores at zero. -/
def gameAt (x : ℚ) (roadList : List Road) : Game :=
  { roadList := roadList
    car := { pos := { x := x, y := 750 } }
    carSpeedVertical := carSpeedVerticalBase
    lastScore := 0
    highScore := 0
    isPaused := false }

/-- The collaborators of a tick at clock value `time` with no key held, frame time 1/60. -/
def idleInput (time : ℚ) : Input :=
  { time := time, frameTime := 1 / 60, keySpace := false, keyA := false, keyD := false,
    draws := zigzagDraws }

/-- A road as it occurs in a reachable list: whole-number x coordinates, width between
`MIN_ROAD_WIDTH` and twice `MIN_ROAD_WIDTH` (the first road), strictly inside the screen. -/
def Road.inScreen (r : Road) : Prop :=
  ∃ a b : Int, r.topLeft.x = a ∧ r.topRight.x = b ∧
    200 ≤ b - a ∧ b - a ≤ 400 ∧ 0 < a ∧ b < 1280

/-- Follows the spec (section 4.2), `advance(dt, speed)`: adds `speed * dt` to the topY of
every segment (both top corners share it). -/
def specAdvance (dt speed : ℚ) (roadList : List Road) : List Road :=
  roadList.map fun r =>
    { r with topLeft := { r.topLeft with y := r.topLeft.y + speed * dt }
             topRight := { r.topRight with y := r.topRight.y + speed * dt } }

/-- Follows the spec (section 4.2), `recycleIfNeeded()`: if the topY of the front segment is
at least `screenHeight`, evict it and append one freshly generated segment at the back,
generated from the current back element; otherwise the sequence is unchanged.  Undefined
(`none`) when there is no front segment or, after the eviction, no back element. -/
def specRecycleIfNeeded (roadList : List Road) (d : Draws) : Option (List Road) :=
  match roadList with
  | [] => none
  | front :: rest =>
    if front.topLeft.y ≥ (screenHeight : ℚ) then
      match rest.getLast? with
      | none => none
      | some back => some (rest ++ [CreateRandomRoad back d])
    else some roadList

/-- Follows the spec (section 4.3), `tick(sequence, dt)`: `advance(dt, currentSpeed)` then
`recycleIfNeeded()`. -/
def specTick (roadList : List Road) (dt speed : ℚ) (d : Draws) : Option (List Road) :=
  specRecycleIfNeeded (specAdvance dt speed roadList) d

/-! ## Binary floating-point rounding

The definitions above read every floating-point operation of main.c as exact.  The
definitions below, whose names end in `F32`, are the same functions of main.c with the
rounding of every floating-point operation made explicit: binary32 (`f32`) for an operation
on `float` operands, binary64 (`f64`) for one with a `double` operand.  A conversion of an
`int` to `float` is `f32` of the integer. -/

/-- Nearest integer, a tie going to the even one. -/
def roundEven (x : ℚ) : Int :=
  if x - (⌊x⌋ : ℚ) < 1 / 2 then ⌊x⌋
  else if 1 / 2 < x - (⌊x⌋ : ℚ) then ⌊x⌋ + 1
  else if ⌊x⌋ % 2 = 0 then ⌊x⌋ else ⌊x⌋ + 1

/-- Rounding to the nearest value of a binary format with `p` significand bits and least
normal exponent `emin`, ties to even, subnormal values included.  Overflow to infinity is
not modelled: the exponent is not bounded above. -/
def roundFloat (p : Nat) (emin : Int) (q : ℚ) : ℚ :=
  (roundEven (q / 2 ^ (max (Int.log 2 |q|) emin - ((p : Int) - 1))) : ℚ) *
    2 ^ (max (Int.log 2 |q|) emin - ((p : Int) - 1))

/-- Rounding to binary32, the `float` of main.c. -/
def f32 (q : ℚ) : ℚ := roundFloat 24 (-126) q

/-- Rounding to binary64, the `double` of main.c. -/
def f64 (q : ℚ) : ℚ := roundFloat 53 (-1022) q

/-- Lines 442-443 and 452-453: `isPaused = true; lastScore = GetTime() - lastScore;`, the
difference taken in `double` and converted to `int`. -/
def collideF32 (g : Game) (time : ℚ) : Game :=
  { g with isPaused := true, lastScore := toInt (f64 (time - (g.lastScore : ℚ))) }

/-- `CheckCarCollision` (lines 433-456) with each `float` difference and sum rounded. -/
def CheckCarCollisionF32 (g : Game) (time : ℚ) : Option Game :=
  match g.roadList with
  | currRoad :: nextRoad :: _ =>
    if g.car.pos.x ≤ f32 (currRoad.topLeft.x - (COLLISION_TOLERANCE : ℚ)) ∨
        f32 (g.car.pos.x + (CAR_WIDTH : ℚ)) ≥
          f32 (currRoad.topRight.x + (COLLISION_TOLERANCE : ℚ)) then
      some (collideF32 g time)
    else if f32 (currRoad.topLeft.y - (COLLISION_TOLERANCE : ℚ)) ≥
          ((screenHeight - CAR_HEIGHT : Int) : ℚ) ∧
        (g.car.pos.x ≤ f32 (nextRoad.topLeft.x - (COLLISION_TOLERANCE : ℚ)) ∨
          f32 (g.car.pos.x + (CAR_WIDTH : ℚ)) ≥
            f32 (nextRoad.topRight.x + (COLLISION_TOLERANCE : ℚ))) then
      some (collideF32 g time)
    else some g
  | _ => none

/-- Body of the loop of `UpdateRoadPositions` (lines 350-351) for one node: the product
`carSpeedVertical * GetFrameTime()` is rounded, then the sum with the y field. -/
def moveRoadF32 (carSpeedVertical frameTime : ℚ) (road : Road) : Road :=
  { road with
    topLeft := { road.topLeft with
      y := f32 (road.topLeft.y + f32 (carSpeedVertical * frameTime)) }
    topRight := { road.topRight with
      y := f32 (road.topRight.y + f32 (carSpeedVertical * frameTime)) } }

/-- `shouldCreateRoadOnLeft` with the `float` difference `screenWidth - topRight.x` rounded;
both comparisons are made in `double`, against `MAX_ROAD_WIDTH - MIN_GAP_WIDTH = 215.0`. -/
def shouldCreateRoadOnLeftF32 (prevRoad : Road) (side : Int) : Int :=
  if prevRoad.topLeft.x ≤ (MAX_ROAD_WIDTH : ℚ) - MIN_GAP_WIDTH then 0
  else if f32 ((screenWidth : ℚ) - prevRoad.topRight.x)
      ≤ (MAX_ROAD_WIDTH : ℚ) - MIN_GAP_WIDTH then 1
  else side

/-- `CreateRandomRoad` (lines 229-269) with the `float` difference of line 261 rounded
before its conversion to `int`, and the four `int` coordinates converted to `float`. -/
def CreateRandomRoadF32 (prevRoad : Road) (d : Draws) : Road :=
  let randomizedRoadWidth : Int := d.width
  let topLeftX : Int :=
    if shouldCreateRoadOnLeftF32 prevRoad d.side ≠ 0 then d.pos - randomizedRoadWidth
    else d.pos
  let topRightX : Int :=
    if shouldCreateRoadOnLeftF32 prevRoad d.side ≠ 0 then d.pos
    else d.pos + randomizedRoadWidth
  let topLeftY : Int := toInt (f32 (prevRoad.topLeft.y - (roadHeight : ℚ)))
  let topRightY : Int := topLeftY
  CreateRoad { x := f32 topLeftX, y := f32 topLeftY } { x := f32 topRightX, y := f32 topRightY }

/-- `CreateAddRandomizedRoadNodeToRoadList` over `CreateRandomRoadF32`; the coordinates of
the first road are small integers, which convert to `float` unchanged. -/
def CreateAddRandomizedRoadNodeToRoadListF32 (roadList : List Road) (d : Draws) : List Road :=
  match roadList.getLast? with
  | none => [firstRoad]
  | some prev => roadList ++ [CreateRandomRoadF32 prev d]

/-- `UpdateRoadPositions` (lines 335-355) with the rounding of the scroll made explicit. -/
def UpdateRoadPositionsF32 (roadList : List Road) (carSpeedVertical frameTime : ℚ)
    (d : Draws) : Option (List Road) :=
  match roadList with
  | [] => none
  | curr :: _ =>
    let recycled : Option (List Road) :=
      if curr.topLeft.y ≥ (screenHeight : ℚ) then
        (RemoveHeadRoadNodeFromRoadList roadList).map
          (fun l => CreateAddRandomizedRoadNodeToRoadListF32 l d)
      else some roadList
    recycled.map (List.map (moveRoadF32 carSpeedVertical frameTime))

/-! ## Arithmetic of the conversion to `int` -/

theorem toInt_of_nonneg {q : ℚ} (hq : 0 ≤ q) : toInt q = ⌊q⌋ := by
  unfold toInt
  rw [Int.tdiv_eq_ediv (Rat.num_nonneg.mpr hq) (Int.ofNat_nonneg _), Rat.floor_def]

theorem toInt_neg (q : ℚ) : toInt (-q) = -toInt q := by
  unfold toInt
  rw [Rat.neg_num, Rat.neg_den, Int.neg_tdiv]

theorem toInt_of_nonpos {q : ℚ} (hq : q ≤ 0) : toInt q = ⌈q⌉ := by
  have h := toInt_of_nonneg (neg_nonneg.mpr hq)
  rw [toInt_neg] at h
  rw [Int.floor_neg] at h
  omega

@[simp] theorem toInt_intCast (n : Int) : toInt (n : ℚ) = n := by
  unfold toInt
  simp

theorem toInt_le_of_nonneg {q : ℚ} (hq : 0 ≤ q) : 0 ≤ toInt q ∧ (toInt q : ℚ) ≤ q := by
  rw [toInt_of_nonneg hq]
  exact ⟨Int.floor_nonneg.mpr hq, Int.floor_le q⟩

theorem le_toInt_of_nonpos {q : ℚ} (hq : q ≤ 0) : toInt q ≤ 0 ∧ q ≤ (toInt q : ℚ) := by
  rw [toInt_of_nonpos hq]
  exact ⟨Int.ceil_le.mpr (by simpa using hq), Int.le_ceil q⟩

theorem MIN_GAP_WIDTH_eq : MIN_GAP_WIDTH = 85 := by
  norm_num [MIN_GAP_WIDTH, CAR_WIDTH]

theorem roadHeight_eq : roadHeight = 266 := by decide

/-! ## Road generation -/

theorem CreateRandomRoad_integralX (prevRoad : Road) (d : Draws) :
    (CreateRandomRoad prevRoad d).integralX := by
  unfold CreateRandomRoad CreateRoad Road.integralX
  exact ⟨_, _, rfl, rfl⟩

theorem CreateRandomRoad_width_eq (prevRoad : Road) (d : Draws) :
    (CreateRandomRoad prevRoad d).width = d.width := by
  unfold CreateRandomRoad CreateRoad Road.width
  by_cases h : shouldCreateRoadOnLeft prevRoad d.side ≠ 0 <;> simp [h]

theorem CreateRandomRoad_overlap (prevRoad : Road) (d : Draws)
    (hp : prevRoad.integralX) (hd : DrawsInRange prevRoad d) :
    MIN_GAP_WIDTH ≤ overlap prevRoad (CreateRandomRoad prevRoad d) := by
  obtain ⟨a, b, ha, hb⟩ := hp
  obtain ⟨⟨hw1, hw2⟩, -, hlo, hhi⟩ := hd
  have hw1' : (200 : ℚ) ≤ d.width := by
    have : (200 : Int) ≤ d.width := by simpa [MIN_ROAD_WIDTH, CAR_WIDTH] using hw1
    exact_mod_cast this
  have e1 : (a : ℚ) + 85 = ((a + 85 : Int) : ℚ) := by push_cast; ring
  have e2 : (b : ℚ) - 85 = ((b - 85 : Int) : ℚ) := by push_cast; ring
  have e3 : ∀ h : Int, (a : ℚ) + (h : ℚ) = ((a + h : Int) : ℚ) := fun h => by push_cast; ring
  have hhalf0 := @toInt_le_of_nonneg (((b : ℚ) - a) / 2)
  have hhalf1 := @le_toInt_of_nonpos (((b : ℚ) - a) / 2)
  rw [MIN_GAP_WIDTH_eq]
  unfold posRange leftRange rightRange prevHalfWidth at hlo hhi
  unfold overlap CreateRandomRoad CreateRoad
  rw [ha, hb] at *
  rw [MIN_GAP_WIDTH_eq] at hlo hhi
  set half := toInt (((b : ℚ) - a) / 2) with hhalf
  by_cases hs : shouldCreateRoadOnLeft prevRoad d.side ≠ 0
  · simp only [hs, if_true, ne_eq, not_false_eq_true, e1, e3, toInt_intCast] at hlo hhi ⊢
    have hlo' : (a : ℚ) + 85 ≤ d.pos := by exact_mod_cast hlo
    have hhi' : (d.pos : ℚ) ≤ a + half := by exact_mod_cast hhi
    have hpos : (0 : ℚ) ≤ ((b : ℚ) - a) / 2 := by
      by_contra hneg
      have := (hhalf1 (le_of_lt (not_le.mp hneg))).1
      have : (half : ℚ) ≤ 0 := by exact_mod_cast this
      linarith
    have := (hhalf0 hpos).2
    push_cast
    simp only [min_def, max_def]
    split_ifs <;> linarith
  · simp only [hs, if_false, e2, e3, toInt_intCast] at hlo hhi ⊢
    have hlo' : (a : ℚ) + half ≤ d.pos := by exact_mod_cast hlo
    have hhi' : (d.pos : ℚ) ≤ b - 85 := by exact_mod_cast hhi
    have hpos : (0 : ℚ) ≤ ((b : ℚ) - a) / 2 := by
      by_contra hneg
      have := (hhalf1 (le_of_lt (not_le.mp hneg))).2
      linarith
    have h0 := (hhalf0 hpos).1
    have h0' : (0 : ℚ) ≤ half := by exact_mod_cast h0
    push_cast
    simp only [min_def, max_def]
    split_ifs <;> linarith

theorem firstRoad_integralX : firstRoad.integralX := by
  unfold firstRoad CreateRoad Road.integralX
  exact ⟨_, _, rfl, rfl⟩

theorem moveRoad_overlap (v t : ℚ) (a b : Road) :
    overlap (moveRoad v t a) (moveRoad v t b) = overlap a b := rfl

theorem moveRoad_integralX (v t : ℚ) (a : Road) :
    (moveRoad v t a).integralX ↔ a.integralX := Iff.rfl

/-! ## Length of the road list -/

theorem CreateAdd_length (roadList : List Road) (d : Draws) :
    (CreateAddRandomizedRoadNodeToRoadList roadList d).length = roadList.length + 1 := by
  unfold CreateAddRandomizedRoadNodeToRoadList
  cases h : roadList.getLast? with
  | none => simp [List.getLast?_eq_none_iff.mp h]
  | some prev => simp

theorem loop_length (ds : Nat → Draws) (is : List Nat) (roadList : List Road) :
    (is.foldl (fun l i => CreateAddRandomizedRoadNodeToRoadList l (ds i)) roadList).length
      = roadList.length + is.length := by
  induction is generalizing roadList with
  | nil => simp
  | cons i is ih =>
    rw [List.foldl_cons, ih, CreateAdd_length, List.length_cons]
    omega

theorem initRoads_length (roadList : List Road) (ds : Nat → Draws) :
    (initRoads roadList ds).length = roadList.length + 6 := by
  unfold initRoads
  rw [loop_length, List.length_range]
  rfl

theorem UpdateRoadPositions_length (roadList : List Road) (v t : ℚ) (d : Draws)
    (h : 2 ≤ roadList.length) :
    ∃ roadList', UpdateRoadPositions roadList v t d = some roadList' ∧
      roadList'.length = roadList.length := by
  match roadList, h with
  | curr :: next :: rest, _ =>
    unfold UpdateRoadPositions
    by_cases hy : curr.topLeft.y ≥ (screenHeight : ℚ)
    · simp [hy, RemoveHeadRoadNodeFromRoadList, CreateAdd_length]
    · simp [hy]

/-! ## Overlap of consecutive roads -/

theorem CreateAdd_roadsOk (roadList : List Road) (d : Draws)
    (hl : roadsOk roadList) (hd : addDrawsInRange roadList d) :
    roadsOk (CreateAddRandomizedRoadNodeToRoadList roadList d) := by
  unfold CreateAddRandomizedRoadNodeToRoadList
  unfold addDrawsInRange at hd
  cases h : roadList.getLast? with
  | none =>
    refine ⟨?_, List.chain'_singleton _⟩
    intro r hr
    rw [List.mem_singleton] at hr
    exact hr ▸ firstRoad_integralX
  | some prev =>
    rw [h] at hd
    have hmem : prev ∈ roadList := List.mem_of_getLast?_eq_some h
    refine ⟨?_, ?_⟩
    · intro r hr
      rcases List.mem_append.mp hr with hr | hr
      · exact hl.1 r hr
      · rw [List.mem_singleton] at hr
        exact hr ▸ CreateRandomRoad_integralX prev d
    · refine List.chain'_append.mpr ⟨hl.2, List.chain'_singleton _, ?_⟩
      intro x hx y hy
      rw [h, Option.mem_def, Option.some.injEq] at hx
      rw [List.head?_cons, Option.mem_def, Option.some.injEq] at hy
      subst hx hy
      exact CreateRandomRoad_overlap prev d (hl.1 prev hmem) hd

theorem loop_roadsOk (ds : Nat → Draws) (is : List Nat) (roadList : List Road)
    (hl : roadsOk roadList) (hd : loopDrawsInRange ds is roadList) :
    roadsOk (is.foldl (fun l i => CreateAddRandomizedRoadNodeToRoadList l (ds i)) roadList) := by
  induction is generalizing roadList with
  | nil => exact hl
  | cons i is ih =>
    rw [List.foldl_cons]
    exact ih _ (CreateAdd_roadsOk roadList (ds i) hl hd.1) hd.2

theorem map_moveRoad_roadsOk (v t : ℚ) (roadList : List Road) (hl : roadsOk roadList) :
    roadsOk (roadList.map (moveRoad v t)) := by
  refine ⟨?_, ?_⟩
  · intro r hr
    obtain ⟨r0, hr0, rfl⟩ := List.mem_map.mp hr
    exact hl.1 r0 hr0
  · rw [List.chain'_map]
    exact hl.2

theorem UpdateRoadPositions_roadsOk (roadList roadList' : List Road) (v t : ℚ) (d : Draws)
    (hl : roadsOk roadList) (hd : updateDrawsInRange roadList d)
    (hu : UpdateRoadPositions roadList v t d = some roadList') : roadsOk roadList' := by
  match roadList, hl, hd, hu with
  | [], _, _, hu => simp [UpdateRoadPositions] at hu
  | [curr], hl, hd, hu =>
    unfold UpdateRoadPositions at hu
    by_cases hy : curr.topLeft.y ≥ (screenHeight : ℚ)
    · simp [hy, RemoveHeadRoadNodeFromRoadList] at hu
    · simp only [hy, if_false, Option.map_some', Option.some.injEq] at hu
      exact hu ▸ map_moveRoad_roadsOk v t _ hl
  | curr :: next :: rest, hl, hd, hu =>
    unfold UpdateRoadPositions at hu
    by_cases hy : curr.topLeft.y ≥ (screenHeight : ℚ)
    · simp only [hy, if_true, RemoveHeadRoadNodeFromRoadList, Option.map_some',
        Option.some.injEq] at hu
      have htail : roadsOk (next :: rest) :=
        ⟨fun r hr => hl.1 r (List.mem_cons_of_mem _ hr), hl.2.tail⟩
      exact hu ▸ map_moveRoad_roadsOk v t _ (CreateAdd_roadsOk _ d htail (hd hy))
    · simp only [hy, if_false, Option.map_some', Option.some.injEq] at hu
      exact hu ▸ map_moveRoad_roadsOk v t _ hl

theorem roadsOk_of_reachable {roadList : List Road} (h : Reachable roadList) :
    roadsOk roadList := by
  induction h with
  | bootstrap ds hd =>
    exact loop_roadsOk ds _ [] ⟨fun _ hr => absurd hr (List.not_mem_nil _), List.chain'_nil⟩ hd
  | update l l' v t d _ hd hu ih => exact UpdateRoadPositions_roadsOk l l' v t d ih hd hu

theorem initRoads_nil (ds : Nat → Draws) :
    initRoads [] ds = [bootRoad ds 0, bootRoad ds 1, bootRoad ds 2, bootRoad ds 3,
      bootRoad ds 4, bootRoad ds 5] := by
  simp [initRoads, ROAD_COUNT_IN_SCREEN, List.range_succ, CreateAddRandomizedRoadNodeToRoadList,
    bootRoad]

theorem initDrawsInRange_nil (ds : Nat → Draws) :
    initDrawsInRange [] ds ↔
      DrawsInRange (bootRoad ds 0) (ds 1) ∧ DrawsInRange (bootRoad ds 1) (ds 2) ∧
      DrawsInRange (bootRoad ds 2) (ds 3) ∧ DrawsInRange (bootRoad ds 3) (ds 4) ∧
      DrawsInRange (bootRoad ds 4) (ds 5) := by
  simp [initDrawsInRange, ROAD_COUNT_IN_SCREEN, List.range_succ, loopDrawsInRange,
    addDrawsInRange, CreateAddRandomizedRoadNodeToRoadList, bootRoad]

@[simp] theorem toInt_ofNat (n : Nat) [n.AtLeastTwo] :
    toInt (no_index (OfNat.ofNat n)) = OfNat.ofNat n := by
  have h := toInt_intCast (n : Int)
  simpa using h

theorem firstRoad_eq :
    firstRoad = { topLeft := { x := 440, y := -264 }, topRight := { x := 840, y := -264 },
                  height := 1064 } := by
  have h1 : Int.tdiv screenWidth 2 - MIN_ROAD_WIDTH = 440 := by decide
  have h2 : Int.tdiv screenWidth 2 + MIN_ROAD_WIDTH = 840 := by decide
  have h3 : screenHeight - roadHeight * 4 = -264 := by decide
  have h4 : roadHeight * 4 = 1064 := by decide
  simp only [firstRoad, CreateRoad, h1, h2, h3]
  norm_num [h4]

theorem firstRoad_x : firstRoad.topLeft.x = 440 ∧ firstRoad.topRight.x = 840 := by
  rw [firstRoad_eq]
  exact ⟨rfl, rfl⟩

theorem zigzag_odd (i : Nat) (hi : i % 2 = 1) (prev : Road)
    (h : (prev.topLeft.x = 440 ∧ prev.topRight.x = 840) ∨
      (prev.topLeft.x = 525 ∧ prev.topRight.x = 725)) :
    DrawsInRange prev (zigzagDraws i) ∧
      (CreateRandomRoad prev (zigzagDraws i)).topLeft.x = 640 ∧
      (CreateRandomRoad prev (zigzagDraws i)).topRight.x = 840 := by
  rcases h with ⟨h1, h2⟩ | ⟨h1, h2⟩ <;>
  norm_num [DrawsInRange, zigzagDraws, hi, posRange, shouldCreateRoadOnLeft, leftRange,
    rightRange, prevHalfWidth, h1, h2, MIN_GAP_WIDTH_eq, MAX_ROAD_WIDTH, MIN_ROAD_WIDTH,
    CAR_WIDTH, screenWidth, CreateRandomRoad, CreateRoad]

theorem zigzag_even (i : Nat) (hi : i % 2 = 0) (prev : Road)
    (h : prev.topLeft.x = 640 ∧ prev.topRight.x = 840) :
    DrawsInRange prev (zigzagDraws i) ∧
      (CreateRandomRoad prev (zigzagDraws i)).topLeft.x = 525 ∧
      (CreateRandomRoad prev (zigzagDraws i)).topRight.x = 725 := by
  obtain ⟨h1, h2⟩ := h
  norm_num [DrawsInRange, zigzagDraws, hi, posRange, shouldCreateRoadOnLeft, leftRange,
    rightRange, prevHalfWidth, h1, h2, MIN_GAP_WIDTH_eq, MAX_ROAD_WIDTH, MIN_ROAD_WIDTH,
    CAR_WIDTH, screenWidth, CreateRandomRoad, CreateRoad]

theorem zigzag_inRange : initDrawsInRange [] zigzagDraws := by
  rw [initDrawsInRange_nil]
  have r1 := zigzag_odd 1 rfl (bootRoad zigzagDraws 0) (Or.inl firstRoad_x)
  have r2 := zigzag_even 2 rfl (bootRoad zigzagDraws 1) r1.2
  have r3 := zigzag_odd 3 rfl (bootRoad zigzagDraws 2) (Or.inr r2.2)
  have r4 := zigzag_even 4 rfl (bootRoad zigzagDraws 3) r3.2
  have r5 := zigzag_odd 5 rfl (bootRoad zigzagDraws 4) (Or.inr r4.2)
  exact ⟨r1.1, r2.1, r3.1, r4.1, r5.1⟩

theorem chain_getElem? {R : Road → Road → Prop} :
    ∀ (l : List Road), List.Chain' R l → ∀ (i : Nat) (a b : Road),
      l[i]? = some a → l[i + 1]? = some b → R a b
  | [], _, i, a, b, ha, _ => by simp at ha
  | [_], _, i, a, b, _, hb => by simp at hb
  | x :: y :: rest, hc, 0, a, b, ha, hb => by
    simp only [List.getElem?_cons_zero, List.getElem?_cons_succ, Option.some.injEq] at ha hb
    rw [List.chain'_cons] at hc
    exact ha ▸ hb ▸ hc.1
  | x :: y :: rest, hc, i + 1, a, b, ha, hb => by
    rw [List.getElem?_cons_succ] at ha hb
    rw [List.chain'_cons] at hc
    exact chain_getElem? (y :: rest) hc.2 i a b ha hb

/-! ## Claims -/

/-- Claim C1. In every road list reachable from bootstrap (`InitGame` on the empty list)
through any number of `UpdateRoadPositions` calls (each scrolls, and recycles when the head
has left the screen), all random draws lying in the ranges requested from `GetRandomValue`,
every two consecutive roads `a`, `b` (positions `i` and `i + 1`) overlap horizontally by at
least `MIN_GAP_WIDTH = 85`.  Position `0` of a bootstrapped list is the 400-wide first road,
so its pair with its successor is included. -/
theorem consecutive_roads_overlap (roadList : List Road) (h : Reachable roadList)
    (i : Nat) (a b : Road) (ha : roadList[i]? = some a) (hb : roadList[i + 1]? = some b) :
    MIN_GAP_WIDTH ≤ min a.topRight.x b.topRight.x - max a.topLeft.x b.topLeft.x ∧
      MIN_GAP_WIDTH = 85 :=
  ⟨chain_getElem? roadList (roadsOk_of_reachable h).2 i a b ha hb, MIN_GAP_WIDTH_eq⟩

/-- Witness for C1: the first road (x range 440 to 840, width 400) and its successor in the
list bootstrapped with `zigzagDraws`. -/
theorem consecutive_roads_overlap_witness :
    (firstRoad.topRight.x - firstRoad.topLeft.x = 400 ∧
      (initRoads [] zigzagDraws)[0]? = some firstRoad) ∧
    (MIN_GAP_WIDTH ≤
        min firstRoad.topRight.x (bootRoad zigzagDraws 1).topRight.x -
          max firstRoad.topLeft.x (bootRoad zigzagDraws 1).topLeft.x ∧
      MIN_GAP_WIDTH = 85) :=
  ⟨⟨by rw [firstRoad_x.1, firstRoad_x.2]; norm_num, by rw [initRoads_nil]; rfl⟩,
    consecutive_roads_overlap (initRoads [] zigzagDraws)
      (Reachable.bootstrap zigzagDraws zigzag_inRange) 0 firstRoad (bootRoad zigzagDraws 1)
      (by rw [initRoads_nil]; rfl) (by rw [initRoads_nil]; rfl)⟩

/-- Claim C2. For every previous road and all outcomes of the draws with the width draw in
its requested range `[MIN_ROAD_WIDTH, MAX_ROAD_WIDTH] = [200, 300]`, the road returned by
`CreateRandomRoad` has width `topRight.x - topLeft.x` equal to the width drawn, hence between
200 and 300, and `topLeft.x < topRight.x`.  Nothing is assumed about the side that is taken
(left or right of the previous road) nor about the position draw, so both branches are
covered. -/
theorem CreateRandomRoad_width_bounds (prevRoad : Road) (d : Draws)
    (hmin : MIN_ROAD_WIDTH ≤ d.width) (hmax : d.width ≤ MAX_ROAD_WIDTH) :
    (CreateRandomRoad prevRoad d).topRight.x - (CreateRandomRoad prevRoad d).topLeft.x = d.width ∧
    (MIN_ROAD_WIDTH : ℚ) ≤
      (CreateRandomRoad prevRoad d).topRight.x - (CreateRandomRoad prevRoad d).topLeft.x ∧
    (CreateRandomRoad prevRoad d).topRight.x - (CreateRandomRoad prevRoad d).topLeft.x
      ≤ (MAX_ROAD_WIDTH : ℚ) ∧
    (CreateRandomRoad prevRoad d).topLeft.x < (CreateRandomRoad prevRoad d).topRight.x ∧
    MIN_ROAD_WIDTH = 200 ∧ MAX_ROAD_WIDTH = 300 := by
  have hw := CreateRandomRoad_width_eq prevRoad d
  unfold Road.width at hw
  have h200 : MIN_ROAD_WIDTH = 200 := by decide
  have h300 : MAX_ROAD_WIDTH = 300 := by decide
  have h1 : (MIN_ROAD_WIDTH : ℚ) ≤ d.width := by exact_mod_cast hmin
  have h2 : (d.width : ℚ) ≤ MAX_ROAD_WIDTH := by exact_mod_cast hmax
  have h3 : (200 : ℚ) ≤ d.width := by rw [h200] at h1; exact_mod_cast h1
  refine ⟨hw, hw ▸ h1, hw ▸ h2, ?_, h200, h300⟩
  linarith

/-- Witness for C2: the road generated to the left of the 200-wide road with x range 640 to
840, width draw 200. -/
theorem CreateRandomRoad_width_bounds_witness :
    (MIN_ROAD_WIDTH ≤ (zigzagDraws 2).width ∧ (zigzagDraws 2).width ≤ MAX_ROAD_WIDTH) ∧
    ((CreateRandomRoad (bootRoad zigzagDraws 1) (zigzagDraws 2)).topRight.x -
        (CreateRandomRoad (bootRoad zigzagDraws 1) (zigzagDraws 2)).topLeft.x
        = (zigzagDraws 2).width ∧
      (MIN_ROAD_WIDTH : ℚ) ≤
        (CreateRandomRoad (bootRoad zigzagDraws 1) (zigzagDraws 2)).topRight.x -
          (CreateRandomRoad (bootRoad zigzagDraws 1) (zigzagDraws 2)).topLeft.x ∧
      (CreateRandomRoad (bootRoad zigzagDraws 1) (zigzagDraws 2)).topRight.x -
          (CreateRandomRoad (bootRoad zigzagDraws 1) (zigzagDraws 2)).topLeft.x
        ≤ (MAX_ROAD_WIDTH : ℚ) ∧
      (CreateRandomRoad (bootRoad zigzagDraws 1) (zigzagDraws 2)).topLeft.x <
        (CreateRandomRoad (bootRoad zigzagDraws 1) (zigzagDraws 2)).topRight.x ∧
      MIN_ROAD_WIDTH = 200 ∧ MAX_ROAD_WIDTH = 300) :=
  ⟨⟨by decide, by decide⟩,
    CreateRandomRoad_width_bounds (bootRoad zigzagDraws 1) (zigzagDraws 2)
      (by decide) (by decide)⟩

/-! ## Road count -/

theorem InitGame_roadList (g : Game) (time : ℚ) (ds : Nat → Draws) :
    (InitGame g time ds).roadList = initRoads g.roadList ds := rfl

theorem RestartGame_roadList (g : Game) (time : ℚ) (ds : Nat → Draws) :
    (RestartGame g time ds).roadList = initRoads [] ds := rfl

theorem ReachableAnyDraws.length_eq {roadList : List Road} (h : ReachableAnyDraws roadList) :
    roadList.length = 6 := by
  induction h with
  | bootstrap g time ds hg => rw [InitGame_roadList, initRoads_length, hg]; rfl
  | restart g time ds => rw [RestartGame_roadList, initRoads_length]; rfl
  | update l l' v t d _ hu ih =>
    obtain ⟨l'', h1, h2⟩ := UpdateRoadPositions_length l v t d (by omega)
    rw [hu, Option.some.injEq] at h1
    rw [h1, h2, ih]

theorem CheckCarCollision_defined (g : Game) (time : ℚ) (h : 2 ≤ g.roadList.length) :
    ∃ g', CheckCarCollision g time = some g' ∧ g'.roadList = g.roadList ∧
      g'.carSpeedVertical = g.carSpeedVertical ∧ g'.car = g.car ∧
      g'.highScore = g.highScore := by
  unfold CheckCarCollision
  match hl : g.roadList, h with
  | currRoad :: nextRoad :: rest, _ =>
    simp only
    split_ifs <;> simp [collide, hl]

theorem UpdateCarPosition_frame (g : Game) (keyA keyD : Bool) (t : ℚ) :
    (UpdateCarPosition g keyA keyD t).roadList = g.roadList ∧
    (UpdateCarPosition g keyA keyD t).carSpeedVertical = g.carSpeedVertical ∧
    (UpdateCarPosition g keyA keyD t).highScore = g.highScore ∧
    (UpdateCarPosition g keyA keyD t).lastScore = g.lastScore ∧
    (UpdateCarPosition g keyA keyD t).isPaused = g.isPaused := by
  unfold UpdateCarPosition
  split_ifs <;> simp

theorem UpdateGame_length (g : Game) (inp : Input) (h : g.roadList.length = 6) :
    ∃ g', UpdateGame g inp = some g' ∧ g'.roadList.length = 6 := by
  unfold UpdateGame
  by_cases hp : g.isPaused = true
  · by_cases hk : inp.keySpace = true
    · simp only [hp, hk, if_true]
      exact ⟨_, rfl, by rw [RestartGame_roadList, initRoads_length]; rfl⟩
    · simp only [hp, hk, if_true]
      exact ⟨g, rfl, h⟩
  · obtain ⟨g1, hc, hr, -⟩ := CheckCarCollision_defined g inp.time (by omega)
    have hr2 := (UpdateCarPosition_frame g1 inp.keyA inp.keyD inp.frameTime).1
    obtain ⟨l', hu, hlen⟩ := UpdateRoadPositions_length
      (UpdateCarPosition g1 inp.keyA inp.keyD inp.frameTime).roadList
      (UpdateCarPosition g1 inp.keyA inp.keyD inp.frameTime).carSpeedVertical
      inp.frameTime (inp.draws 0) (by rw [hr2, hr]; omega)
    simp only [hp, hc, Option.some_bind, hu, Option.map_some']
    refine ⟨_, rfl, ?_⟩
    simp only [hlen, hr2, hr, h]

theorem runGame_length (inputs : List Input) :
    ∀ g : Game, g.roadList.length = 6 →
      ∃ g', runGame g inputs = some g' ∧ g'.roadList.length = 6 := by
  induction inputs with
  | nil => exact fun g h => ⟨g, rfl, h⟩
  | cons inp rest ih =>
    intro g h
    obtain ⟨g1, h1, h1len⟩ := UpdateGame_length g inp h
    obtain ⟨g2, h2, h2len⟩ := ih g1 h1len
    exact ⟨g2, by simp only [runGame, h1, Option.some_bind, h2], h2len⟩

/-- Claim C3. The road list holds exactly `2 * ROAD_COUNT_IN_SCREEN = 6` roads after
`InitGame` from the empty list, after `RestartGame` from any list, and in every list reached
from those by any number of `UpdateRoadPositions` calls with any speed, frame time and draws:
each such call returns a list, again of 6 roads.  Such a list has at least 2 roads, so
`CheckCarCollision` and `RemoveHeadRoadNodeFromRoadList` are defined on it.  The same holds
along any number of `UpdateGame` ticks started with 6 roads. -/
theorem road_count_invariant :
    2 * ROAD_COUNT_IN_SCREEN = 6 ∧
    (∀ (g : Game) (time : ℚ) (ds : Nat → Draws), g.roadList = [] →
      (InitGame g time ds).roadList.length = 2 * ROAD_COUNT_IN_SCREEN) ∧
    (∀ (g : Game) (time : ℚ) (ds : Nat → Draws),
      (RestartGame g time ds).roadList.length = 2 * ROAD_COUNT_IN_SCREEN) ∧
    (∀ roadList : List Road, ReachableAnyDraws roadList →
      roadList.length = 2 * ROAD_COUNT_IN_SCREEN ∧ 2 ≤ roadList.length ∧
      (∀ (v t : ℚ) (d : Draws), ∃ roadList',
        UpdateRoadPositions roadList v t d = some roadList' ∧
          roadList'.length = 2 * ROAD_COUNT_IN_SCREEN) ∧
      (∀ (g : Game) (time : ℚ), g.roadList = roadList →
        ∃ g', CheckCarCollision g time = some g') ∧
      (∃ rest, RemoveHeadRoadNodeFromRoadList roadList = some rest)) ∧
    (∀ (g : Game) (inputs : List Input), g.roadList.length = 2 * ROAD_COUNT_IN_SCREEN →
      ∃ g', runGame g inputs = some g' ∧ g'.roadList.length = 2 * ROAD_COUNT_IN_SCREEN) := by
  have h6 : 2 * ROAD_COUNT_IN_SCREEN = 6 := rfl
  rw [h6]
  refine ⟨rfl, ?_, ?_, ?_, fun g inputs h => runGame_length inputs g h⟩
  · intro g time ds hg
    rw [InitGame_roadList, initRoads_length, hg]
    rfl
  · intro g time ds
    rw [RestartGame_roadList, initRoads_length]
    rfl
  · intro roadList hr
    have hlen := hr.length_eq
    refine ⟨hlen, by omega, ?_, ?_, ?_⟩
    · intro v t d
      obtain ⟨l', h1, h2⟩ := UpdateRoadPositions_length roadList v t d (by omega)
      exact ⟨l', h1, by rw [h2, hlen]⟩
    · intro g time hg
      obtain ⟨g', h1, -⟩ := CheckCarCollision_defined g time (by rw [hg]; omega)
      exact ⟨g', h1⟩
    · match roadList, hlen with
      | _ :: next :: rest, _ => exact ⟨next :: rest, rfl⟩


/-- Witness for C3: the list bootstrapped with `zigzagDraws` has 6 roads, and two ticks of a
game on that list, car at its start position, return a game that still has 6 roads. -/
theorem road_count_invariant_witness :
    (InitGame (gameAt 615 []) 0 zigzagDraws).roadList.length = 2 * ROAD_COUNT_IN_SCREEN ∧
    ∃ g', runGame (gameAt 615 (initRoads [] zigzagDraws)) [idleInput 1, idleInput 2] = some g' ∧
      g'.roadList.length = 2 * ROAD_COUNT_IN_SCREEN :=
  ⟨road_count_invariant.2.1 (gameAt 615 []) 0 zigzagDraws rfl,
    road_count_invariant.2.2.2.2 (gameAt 615 (initRoads [] zigzagDraws))
      [idleInput 1, idleInput 2] (initRoads_length [] zigzagDraws)⟩

/-! ## Scroll speed -/

theorem limitSpeed_iterate_ramp (n : Nat) (hn : n ≤ 5001) :
    limitSpeed^[n] carSpeedVerticalBase = 240 + (n : ℚ) * (6 / 100) := by
  induction n with
  | zero => norm_num [carSpeedVerticalBase]
  | succ k ih =>
    have hk : (k : ℚ) ≤ 5000 := by exact_mod_cast (by omega : k ≤ 5000)
    rw [Function.iterate_succ_apply', ih (by omega)]
    unfold limitSpeed
    rw [if_pos (by linarith)]
    push_cast
    ring

theorem limitSpeed_le (v : ℚ) (hv : v ≤ 540 + 6 / 100) : limitSpeed v ≤ 540 + 6 / 100 := by
  unfold limitSpeed
  split_ifs with h
  · linarith
  · exact hv

theorem limitSpeed_iterate_le (n : Nat) (v : ℚ) (hv : v ≤ 540 + 6 / 100) :
    limitSpeed^[n] v ≤ 540 + 6 / 100 := by
  induction n with
  | zero => exact hv
  | succ k ih =>
    rw [Function.iterate_succ_apply']
    exact limitSpeed_le _ ih

theorem UpdateGame_running_speed (g g' : Game) (inp : Input) (hp : g.isPaused = false)
    (hu : UpdateGame g inp = some g') :
    g'.carSpeedVertical = limitSpeed g.carSpeedVertical := by
  unfold UpdateGame at hu
  simp only [hp, Bool.false_eq_true, if_false] at hu
  cases hc : CheckCarCollision g inp.time with
  | none => simp [hc] at hu
  | some g1 =>
    have hlen : 2 ≤ g.roadList.length := by
      unfold CheckCarCollision at hc
      match hl : g.roadList with
      | [] => simp [hl] at hc
      | [_] => simp [hl] at hc
      | _ :: _ :: _ => simp
    obtain ⟨g1', hc', -, hs, -⟩ := CheckCarCollision_defined g inp.time hlen
    rw [hc, Option.some.injEq] at hc'
    subst hc'
    simp only [hc, Option.some_bind] at hu
    cases hr : UpdateRoadPositions (UpdateCarPosition g1 inp.keyA inp.keyD inp.frameTime).roadList
        (UpdateCarPosition g1 inp.keyA inp.keyD inp.frameTime).carSpeedVertical inp.frameTime
        (inp.draws 0) with
    | none => simp [hr] at hu
    | some roads =>
      simp only [hr, Option.map_some', Option.some.injEq] at hu
      rw [← hu]
      simp only [(UpdateCarPosition_frame g1 inp.keyA inp.keyD inp.frameTime).2.1, hs]

/-- Counterexample to C4: after 5001 speed updates from the base speed 240 the speed is
540.06, above 540; and at speed 540 the update yields 540.06, not `min (540 + 0.06) 540`. -/
theorem speed_cap_counterexample :
    limitSpeed^[5001] carSpeedVerticalBase = 540 + 6 / 100 ∧
    (540 : ℚ) < limitSpeed^[5001] carSpeedVerticalBase ∧
    limitSpeed^[5000] carSpeedVerticalBase = 540 ∧
    limitSpeed 540 = 540 + 6 / 100 ∧
    limitSpeed 540 ≠ min (540 + 6 / 100) 540 := by
  have h1 := limitSpeed_iterate_ramp 5001 (by norm_num)
  have h0 := limitSpeed_iterate_ramp 5000 (by norm_num)
  have h2 : limitSpeed 540 = 540 + 6 / 100 := by norm_num [limitSpeed]
  refine ⟨?_, ?_, ?_, h2, ?_⟩
  · rw [h1]; norm_num
  · rw [h1]; norm_num
  · rw [h0]; norm_num
  · rw [h2]; norm_num

/-- Claim C4, amended. Starting from the base speed 240 and applying the speed update of
`UpdateGame` any number of times, the speed never exceeds 540 + 0.06 = 540.06.  The update
is `if carSpeedVertical <= 540 then carSpeedVertical + 0.06 else carSpeedVertical` (exact
rationals): every `UpdateGame` tick that starts unpaused applies it once. -/
theorem speed_bounded :
    (∀ n : Nat, limitSpeed^[n] carSpeedVerticalBase ≤ 540 + 6 / 100) ∧
    carSpeedVerticalBase = 240 ∧
    (∀ v : ℚ, limitSpeed v = if v ≤ 540 then v + 6 / 100 else v) ∧
    (∀ (g g' : Game) (inp : Input), g.isPaused = false → UpdateGame g inp = some g' →
      g'.carSpeedVertical = limitSpeed g.carSpeedVertical) :=
  ⟨fun n => limitSpeed_iterate_le n _ (by norm_num [carSpeedVerticalBase]), rfl, fun _ => rfl,
    UpdateGame_running_speed⟩

/-- Witness for C4 (amended): one tick of a running game at the base speed, on the list
bootstrapped with `zigzagDraws`, ends at speed 240.06. -/
theorem speed_bounded_witness :
    ∃ g', UpdateGame (gameAt 615 (initRoads [] zigzagDraws)) (idleInput 1) = some g' ∧
      g'.carSpeedVertical = 240 + 6 / 100 := by
  obtain ⟨g', h, -⟩ := UpdateGame_length (gameAt 615 (initRoads [] zigzagDraws)) (idleInput 1)
    (initRoads_length [] zigzagDraws)
  refine ⟨g', h, ?_⟩
  rw [speed_bounded.2.2.2 (gameAt 615 (initRoads [] zigzagDraws)) g' (idleInput 1) rfl h]
  norm_num [limitSpeed, gameAt, carSpeedVerticalBase]

/-! ## Collision -/

theorem collide_isPaused (g : Game) (time : ℚ) : (collide g time).isPaused = true := rfl

theorem CheckCarCollision_ruleA (g : Game) (time : ℚ) (near far : Road) (rest : List Road)
    (hl : g.roadList = near :: far :: rest)
    (hA : g.car.pos.x ≤ near.topLeft.x - (COLLISION_TOLERANCE : ℚ) ∨
      g.car.pos.x + (CAR_WIDTH : ℚ) ≥ near.topRight.x + (COLLISION_TOLERANCE : ℚ)) :
    CheckCarCollision g time = some (collide g time) := by
  unfold CheckCarCollision
  rw [hl]
  simp only [hA, if_true]

theorem CheckCarCollision_ruleB (g : Game) (time : ℚ) (near far : Road) (rest : List Road)
    (hl : g.roadList = near :: far :: rest)
    (hB : near.topLeft.y - (COLLISION_TOLERANCE : ℚ) ≥ ((screenHeight - CAR_HEIGHT : Int) : ℚ))
    (hfar : g.car.pos.x ≤ far.topLeft.x - (COLLISION_TOLERANCE : ℚ) ∨
      g.car.pos.x + (CAR_WIDTH : ℚ) ≥ far.topRight.x + (COLLISION_TOLERANCE : ℚ)) :
    CheckCarCollision g time = some (collide g time) := by
  unfold CheckCarCollision
  rw [hl]
  simp only [hB, hfar, and_self, if_true, ite_self]

theorem CheckCarCollision_clear (g : Game) (time : ℚ) (near far : Road) (rest : List Road)
    (hl : g.roadList = near :: far :: rest)
    (hA : ¬ (g.car.pos.x ≤ near.topLeft.x - (COLLISION_TOLERANCE : ℚ) ∨
      g.car.pos.x + (CAR_WIDTH : ℚ) ≥ near.topRight.x + (COLLISION_TOLERANCE : ℚ)))
    (hB : ¬ (near.topLeft.y - (COLLISION_TOLERANCE : ℚ) ≥ ((screenHeight - CAR_HEIGHT : Int) : ℚ) ∧
      (g.car.pos.x ≤ far.topLeft.x - (COLLISION_TOLERANCE : ℚ) ∨
        g.car.pos.x + (CAR_WIDTH : ℚ) ≥ far.topRight.x + (COLLISION_TOLERANCE : ℚ)))) :
    CheckCarCollision g time = some g := by
  unfold CheckCarCollision
  rw [hl]
  simp only [hA, hB, if_false]

theorem collision_consts :
    (COLLISION_TOLERANCE : ℚ) = 5 ∧ (CAR_WIDTH : ℚ) = 50 ∧
      ((screenHeight - CAR_HEIGHT : Int) : ℚ) = 750 := by
  norm_num [COLLISION_TOLERANCE, CAR_WIDTH, screenHeight, CAR_HEIGHT]

/-- Claim C6. For every car x, near road and far road with
`car.x < near.topLeft.x - TOLERANCE - 1`, `CheckCarCollision` reports a collision: it returns
the state with `isPaused` set to true, whatever `near.topLeft.y` and the far road are. -/
theorem collision_left_of_near (g : Game) (time : ℚ) (near far : Road) (rest : List Road)
    (hl : g.roadList = near :: far :: rest)
    (hx : g.car.pos.x < near.topLeft.x - (COLLISION_TOLERANCE : ℚ) - 1) :
    CheckCarCollision g time = some (collide g time) ∧ (collide g time).isPaused = true := by
  refine ⟨CheckCarCollision_ruleA g time near far rest hl (Or.inl ?_), rfl⟩
  linarith

/-- Witness for C6: the car at x = 90, left of a near road with x range 100 to 300. -/
theorem collision_left_of_near_witness :
    (CheckCarCollision (gameAt 90 [roadAt 100 300 0, roadAt 150 350 (-266)]) 0).map
      Game.isPaused = some true := by
  rw [(collision_left_of_near (gameAt 90 [roadAt 100 300 0, roadAt 150 350 (-266)]) 0
    (roadAt 100 300 0) (roadAt 150 350 (-266)) [] rfl
    (by norm_num [gameAt, roadAt, COLLISION_TOLERANCE])).1]
  rfl

/-- Claim C7. Whenever the Rule-B condition holds
(`near.topLeft.y - TOLERANCE >= screenHeight - CAR_HEIGHT`, which is `near.topLeft.y >= 755`)
and the car extent is not within the tolerant range of the far road
(`car.x < far.topLeft.x - TOLERANCE` or `car.x + CAR_WIDTH > far.topRight.x + TOLERANCE`),
`CheckCarCollision` reports a collision, wherever the car is relative to the near road. -/
theorem far_road_collision (g : Game) (time : ℚ) (near far : Road) (rest : List Road)
    (hl : g.roadList = near :: far :: rest)
    (hB : near.topLeft.y - (COLLISION_TOLERANCE : ℚ) ≥ ((screenHeight - CAR_HEIGHT : Int) : ℚ))
    (hfar : g.car.pos.x < far.topLeft.x - (COLLISION_TOLERANCE : ℚ) ∨
      g.car.pos.x + (CAR_WIDTH : ℚ) > far.topRight.x + (COLLISION_TOLERANCE : ℚ)) :
    (CheckCarCollision g time = some (collide g time) ∧ (collide g time).isPaused = true) ∧
    (near.topLeft.y - (COLLISION_TOLERANCE : ℚ) ≥ ((screenHeight - CAR_HEIGHT : Int) : ℚ) ↔
      near.topLeft.y ≥ 755) := by
  refine ⟨⟨CheckCarCollision_ruleB g time near far rest hl hB ?_, rfl⟩, ?_⟩
  · rcases hfar with h | h
    · exact Or.inl (le_of_lt h)
    · exact Or.inr (le_of_lt h)
  · obtain ⟨h1, -, h3⟩ := collision_consts
    rw [h1, h3]
    constructor <;> intro h <;> linarith

/-- Witness for C7: near road with x range 100 to 300 and top at height 760, far road with
x range 250 to 450, car at x = 150: inside the near road, left of the far road. -/
theorem far_road_collision_witness :
    (CheckCarCollision (gameAt 150 [roadAt 100 300 760, roadAt 250 450 494]) 0).map
      Game.isPaused = some true := by
  rw [(far_road_collision (gameAt 150 [roadAt 100 300 760, roadAt 250 450 494]) 0
    (roadAt 100 300 760) (roadAt 250 450 494) [] rfl
    (by norm_num [roadAt, COLLISION_TOLERANCE, screenHeight, CAR_HEIGHT])
    (Or.inl (by norm_num [gameAt, roadAt, COLLISION_TOLERANCE]))).1.1]
  rfl

/-- Counterexample to C8: near road with x range 100 to 300 and top at height 0 (below the
Rule-B threshold), far road with x range 150 to 350, car at x = 280: `CheckCarCollision`
sets `isPaused`. -/
theorem scenario_counterexample :
    ((0 : ℚ) - (COLLISION_TOLERANCE : ℚ) < ((screenHeight - CAR_HEIGHT : Int) : ℚ)) ∧
    (gameAt 280 [roadAt 100 300 0, roadAt 150 350 (-266)]).isPaused = false ∧
    (CheckCarCollision (gameAt 280 [roadAt 100 300 0, roadAt 150 350 (-266)]) 0).map
      Game.isPaused = some true := by
  refine ⟨by norm_num [COLLISION_TOLERANCE, screenHeight, CAR_HEIGHT], rfl, ?_⟩
  rw [CheckCarCollision_ruleA _ 0 (roadAt 100 300 0) (roadAt 150 350 (-266)) [] rfl
    (Or.inr (by norm_num [gameAt, roadAt, COLLISION_TOLERANCE, CAR_WIDTH]))]
  rfl

/-- Claim C8, amended. Scenario: with near road x range 100 to 300, far road x range 150 to
350, `CAR_WIDTH` 50 and car.x = 280, `CheckCarCollision` reports a collision for every
`near.topLeft.y`, below the Rule-B threshold or not: the right edge of the car, 330, is
at or beyond `near.topRight.x + TOLERANCE = 305`. -/
theorem scenario_collides (g : Game) (time : ℚ) (near far : Road) (rest : List Road)
    (hl : g.roadList = near :: far :: rest)
    (_hnl : near.topLeft.x = 100) (hnr : near.topRight.x = 300)
    (_hfl : far.topLeft.x = 150) (_hfr : far.topRight.x = 350)
    (hc : g.car.pos.x = 280) :
    CheckCarCollision g time = some (collide g time) ∧ (collide g time).isPaused = true ∧
      g.car.pos.x + (CAR_WIDTH : ℚ) = 330 ∧
      near.topRight.x + (COLLISION_TOLERANCE : ℚ) = 305 := by
  obtain ⟨h1, h2, -⟩ := collision_consts
  refine ⟨CheckCarCollision_ruleA g time near far rest hl (Or.inr ?_), rfl, ?_, ?_⟩
  · rw [hc, hnr, h1, h2]; norm_num
  · rw [hc, h2]; norm_num
  · rw [hnr, h1]; norm_num

/-- Witness for C8 (amended): the scenario with the near road top at height 100. -/
theorem scenario_collides_witness :
    (CheckCarCollision (gameAt 280 [roadAt 100 300 100, roadAt 150 350 (-166)]) 0).map
      Game.isPaused = some true := by
  rw [(scenario_collides (gameAt 280 [roadAt 100 300 100, roadAt 150 350 (-166)]) 0
    (roadAt 100 300 100) (roadAt 150 350 (-166)) [] rfl
    (by norm_num [roadAt]) (by norm_num [roadAt]) (by norm_num [roadAt]) (by norm_num [roadAt])
    rfl).1]
  rfl

/-! ## Restart and the collision tick -/

theorem bootRoad_width (ds : Nat → Draws) (n : Nat) (h : DrawsInRange (bootRoad ds n) (ds (n + 1))) :
    (200 : ℚ) ≤ (bootRoad ds (n + 1)).topRight.x - (bootRoad ds (n + 1)).topLeft.x ∧
    (bootRoad ds (n + 1)).topRight.x - (bootRoad ds (n + 1)).topLeft.x ≤ 300 := by
  have hw := CreateRandomRoad_width_eq (bootRoad ds n) (ds (n + 1))
  unfold Road.width at hw
  obtain ⟨⟨h1, h2⟩, -⟩ := h
  have h1' : (200 : Int) ≤ (ds (n + 1)).width := h1
  have h2' : (ds (n + 1)).width ≤ (300 : Int) := h2
  show 200 ≤ (CreateRandomRoad (bootRoad ds n) (ds (n + 1))).topRight.x -
      (CreateRandomRoad (bootRoad ds n) (ds (n + 1))).topLeft.x ∧
    (CreateRandomRoad (bootRoad ds n) (ds (n + 1))).topRight.x -
      (CreateRandomRoad (bootRoad ds n) (ds (n + 1))).topLeft.x ≤ 300
  rw [hw]
  exact ⟨by exact_mod_cast h1', by exact_mod_cast h2'⟩

theorem initRoads_tail_width (ds : Nat → Draws) (hd : initDrawsInRange [] ds) :
    ∀ r ∈ (initRoads [] ds).tail,
      (200 : ℚ) ≤ r.topRight.x - r.topLeft.x ∧ r.topRight.x - r.topLeft.x ≤ 300 := by
  obtain ⟨h1, h2, h3, h4, h5⟩ := (initDrawsInRange_nil ds).mp hd
  intro r hr
  rw [initRoads_nil] at hr
  simp only [List.tail_cons, List.mem_cons, List.mem_singleton, List.not_mem_nil,
    or_false] at hr
  rcases hr with rfl | rfl | rfl | rfl | rfl
  · exact bootRoad_width ds 0 h1
  · exact bootRoad_width ds 1 h2
  · exact bootRoad_width ds 2 h3
  · exact bootRoad_width ds 3 h4
  · exact bootRoad_width ds 4 h5

theorem InitGame_car (g : Game) (time : ℚ) (ds : Nat → Draws) :
    (InitGame g time ds).car.pos = { x := 615, y := 750 } := by
  have h1 : Int.tdiv screenWidth 2 - Int.tdiv CAR_WIDTH 2 = 615 := by decide
  have h2 : screenHeight - CAR_HEIGHT = 750 := by decide
  simp only [InitGame, h1, h2]
  norm_num

theorem InitGame_highScore (g : Game) (time : ℚ) (ds : Nat → Draws) :
    (InitGame g time ds).highScore = max g.highScore g.lastScore := by
  simp only [InitGame]
  split_ifs with h
  · exact (max_eq_right (le_of_lt h)).symm
  · exact (max_eq_left (not_lt.mp h)).symm

theorem CheckCarCollision_paused (g g1 : Game) (time : ℚ) (hp : g.isPaused = false)
    (hc : CheckCarCollision g time = some g1) (hcol : g1.isPaused = true) :
    g1 = collide g time ∧ 2 ≤ g.roadList.length := by
  unfold CheckCarCollision at hc
  match hl : g.roadList with
  | [] => simp [hl] at hc
  | [_] => simp [hl] at hc
  | currRoad :: nextRoad :: rest =>
    simp only [hl] at hc
    refine ⟨?_, by simp⟩
    split_ifs at hc
    · exact (Option.some.inj hc).symm
    · exact (Option.some.inj hc).symm
    · rw [← Option.some.inj hc, hp] at hcol
      exact absurd hcol (by decide)

theorem UpdateGame_collision (g : Game) (inp : Input) (hp : g.isPaused = false)
    (hlen : 2 ≤ g.roadList.length)
    (hc : CheckCarCollision g inp.time = some (collide g inp.time)) :
    ∃ g', UpdateGame g inp = some g' ∧ g'.isPaused = true ∧
      g'.lastScore = toInt (inp.time - (g.lastScore : ℚ)) ∧ g'.highScore = g.highScore := by
  have hf := UpdateCarPosition_frame (collide g inp.time) inp.keyA inp.keyD inp.frameTime
  obtain ⟨l', hu, -⟩ := UpdateRoadPositions_length
    (UpdateCarPosition (collide g inp.time) inp.keyA inp.keyD inp.frameTime).roadList
    (UpdateCarPosition (collide g inp.time) inp.keyA inp.keyD inp.frameTime).carSpeedVertical
    inp.frameTime (inp.draws 0) (by rw [hf.1]; exact hlen)
  unfold UpdateGame
  simp only [hp, Bool.false_eq_true, if_false, hc, Option.some_bind, hu, Option.map_some']
  refine ⟨_, rfl, ?_, ?_, ?_⟩
  · simp only [hf.2.2.2.2]; rfl
  · simp only [hf.2.2.2.1]; rfl
  · simp only [hf.2.2.1]; rfl

/-- Claim C9. For every state (in particular one in which a collision has frozen the score:
`isPaused = true`, `lastScore = S`) and all draws in their requested ranges, `RestartGame`
yields `isPaused = false`, `carSpeedVertical` = base speed 240, `highScore` = max of the old
`highScore` and `S`, the car at its centred start position (615, 750), and the road list
built from the empty list: exactly 6 roads, the first road in front, every generated road
of width between 200 and 300, every two consecutive roads overlapping by at least 85.  The
new list is `initRoads [] ds`, which does not depend on the old list. -/
theorem restart_fresh_state (g : Game) (time : ℚ) (ds : Nat → Draws) (S : Int)
    (hS : g.lastScore = S) (hd : initDrawsInRange [] ds) :
    (RestartGame g time ds).isPaused = false ∧
    ((RestartGame g time ds).carSpeedVertical = carSpeedVerticalBase ∧
      carSpeedVerticalBase = 240) ∧
    (RestartGame g time ds).highScore = max g.highScore S ∧
    (RestartGame g time ds).car.pos = { x := 615, y := 750 } ∧
    (RestartGame g time ds).roadList.length = 6 ∧
    (RestartGame g time ds).roadList.head? = some firstRoad ∧
    (∀ r ∈ (RestartGame g time ds).roadList.tail,
      (200 : ℚ) ≤ r.topRight.x - r.topLeft.x ∧ r.topRight.x - r.topLeft.x ≤ 300) ∧
    (∀ (i : Nat) (a b : Road), (RestartGame g time ds).roadList[i]? = some a →
      (RestartGame g time ds).roadList[i + 1]? = some b →
      (85 : ℚ) ≤ min a.topRight.x b.topRight.x - max a.topLeft.x b.topLeft.x) ∧
    (RestartGame g time ds).roadList = initRoads [] ds := by
  refine ⟨rfl, ⟨rfl, rfl⟩, ?_, InitGame_car _ time ds, ?_, ?_, ?_, ?_, rfl⟩
  · rw [← hS]; exact InitGame_highScore _ time ds
  · rw [RestartGame_roadList, initRoads_length]; rfl
  · rw [RestartGame_roadList, initRoads_nil]; rfl
  · rw [RestartGame_roadList]; exact initRoads_tail_width ds hd
  · rw [RestartGame_roadList]
    intro i a b ha hb
    have h := chain_getElem? _ (roadsOk_of_reachable (Reachable.bootstrap ds hd)).2 i a b ha hb
    rw [MIN_GAP_WIDTH_eq] at h
    exact h

/-- Witness for C9: restart of the game paused with score 12 on an old two-road list. -/
theorem restart_fresh_state_witness :
    (RestartGame
      { gameAt 95 [roadAt 100 300 0, roadAt 150 350 (-266)] with
        isPaused := true, lastScore := 12 } 20 zigzagDraws).highScore = max 0 12 ∧
    (RestartGame
      { gameAt 95 [roadAt 100 300 0, roadAt 150 350 (-266)] with
        isPaused := true, lastScore := 12 } 20 zigzagDraws).roadList.length = 6 :=
  have h := restart_fresh_state
    { gameAt 95 [roadAt 100 300 0, roadAt 150 350 (-266)] with
      isPaused := true, lastScore := 12 } 20 zigzagDraws 12 rfl zigzag_inRange
  ⟨h.2.2.1, h.2.2.2.2.1⟩

/-- Counterexample to C10: a running game with `highScore = 0`, started at clock 0, the car
at x = 95 left of the first road; the tick at clock value 10 detects the collision, freezes
the score at 10 and pauses, and `highScore` is still 0, not `max 0 10`. -/
theorem collision_tick_counterexample :
    (gameAt 95 (initRoads [] zigzagDraws)).isPaused = false ∧
    (gameAt 95 (initRoads [] zigzagDraws)).highScore = 0 ∧
    ∃ g', UpdateGame (gameAt 95 (initRoads [] zigzagDraws)) (idleInput 10) = some g' ∧
      g'.isPaused = true ∧ g'.lastScore = 10 ∧ g'.highScore = 0 ∧
      g'.highScore ≠ max 0 10 := by
  have hc : CheckCarCollision (gameAt 95 (initRoads [] zigzagDraws)) (idleInput 10).time
      = some (collide (gameAt 95 (initRoads [] zigzagDraws)) (idleInput 10).time) :=
    CheckCarCollision_ruleA _ _ (bootRoad zigzagDraws 0) (bootRoad zigzagDraws 1)
      [bootRoad zigzagDraws 2, bootRoad zigzagDraws 3, bootRoad zigzagDraws 4,
        bootRoad zigzagDraws 5]
      (by rw [initRoads_nil]; rfl)
      (Or.inl (by
        show (95 : ℚ) ≤ firstRoad.topLeft.x - (COLLISION_TOLERANCE : ℚ)
        rw [firstRoad_x.1]; norm_num [COLLISION_TOLERANCE]))
  obtain ⟨g', h1, h2, h3, h4⟩ := UpdateGame_collision (gameAt 95 (initRoads [] zigzagDraws))
    (idleInput 10) rfl (by rw [initRoads_nil]; simp [gameAt]) hc
  refine ⟨rfl, rfl, g', h1, h2, ?_, h4, ?_⟩
  · rw [h3]
    show toInt ((10 : ℚ) - ((0 : Int) : ℚ)) = 10
    norm_num
  · rw [h4]
    decide

/-- Claim C10, amended. When a Running tick detects a collision (`CheckCarCollision` sets
`isPaused`) with elapsed-seconds score `S = toInt (GetTime() - lastScore)`, that same
`UpdateGame` tick freezes the score (`lastScore = S`) and sets the phase to Paused;
`highScore` is unchanged by that tick, and becomes `max highScore S` in the following
restart. -/
theorem collision_tick (g g1 : Game) (inp : Input) (hp : g.isPaused = false)
    (hc : CheckCarCollision g inp.time = some g1) (hcol : g1.isPaused = true) :
    ∃ g', UpdateGame g inp = some g' ∧ g'.isPaused = true ∧
      g'.lastScore = toInt (inp.time - (g.lastScore : ℚ)) ∧
      g'.highScore = g.highScore ∧
      ∀ (time : ℚ) (ds : Nat → Draws),
        (RestartGame g' time ds).highScore =
          max g.highScore (toInt (inp.time - (g.lastScore : ℚ))) := by
  obtain ⟨h1, hlen⟩ := CheckCarCollision_paused g g1 inp.time hp hc hcol
  rw [h1] at hc
  obtain ⟨g', hu, h2, h3, h4⟩ := UpdateGame_collision g inp hp hlen hc
  refine ⟨g', hu, h2, h3, h4, fun time ds => ?_⟩
  show (InitGame (UnloadGame g') time ds).highScore = _
  rw [InitGame_highScore]
  show max g'.highScore g'.lastScore = _
  rw [h3, h4]

/-- Witness for C10 (amended): the tick at clock value 10 of a running game whose car, at
x = 95, is left of the first road. -/
theorem collision_tick_witness :
    ∃ g', UpdateGame (gameAt 95 (initRoads [] zigzagDraws)) (idleInput 10) = some g' ∧
      g'.isPaused = true ∧
      g'.lastScore = toInt ((idleInput 10).time -
        ((gameAt 95 (initRoads [] zigzagDraws)).lastScore : ℚ)) ∧
      g'.highScore = (gameAt 95 (initRoads [] zigzagDraws)).highScore ∧
      ∀ (time : ℚ) (ds : Nat → Draws),
        (RestartGame g' time ds).highScore =
          max (gameAt 95 (initRoads [] zigzagDraws)).highScore
            (toInt ((idleInput 10).time -
              ((gameAt 95 (initRoads [] zigzagDraws)).lastScore : ℚ))) :=
  collision_tick (gameAt 95 (initRoads [] zigzagDraws))
    (collide (gameAt 95 (initRoads [] zigzagDraws)) (idleInput 10).time) (idleInput 10) rfl
    (CheckCarCollision_ruleA _ _ (bootRoad zigzagDraws 0) (bootRoad zigzagDraws 1)
      [bootRoad zigzagDraws 2, bootRoad zigzagDraws 3, bootRoad zigzagDraws 4,
        bootRoad zigzagDraws 5]
      (by rw [initRoads_nil]; rfl)
      (Or.inl (by
        show (95 : ℚ) ≤ firstRoad.topLeft.x - (COLLISION_TOLERANCE : ℚ)
        rw [firstRoad_x.1]; norm_num [COLLISION_TOLERANCE])))
    rfl

/-! ## Properties of every road of a reachable list -/

theorem CreateAdd_forall (P : Road → Prop) (h0 : P firstRoad)
    (hgen : ∀ prev d, P prev → DrawsInRange prev d → P (CreateRandomRoad prev d))
    (roadList : List Road) (d : Draws) (hl : ∀ r ∈ roadList, P r)
    (hd : addDrawsInRange roadList d) :
    ∀ r ∈ CreateAddRandomizedRoadNodeToRoadList roadList d, P r := by
  unfold CreateAddRandomizedRoadNodeToRoadList
  unfold addDrawsInRange at hd
  cases h : roadList.getLast? with
  | none =>
    intro r hr
    rw [List.mem_singleton] at hr
    exact hr ▸ h0
  | some prev =>
    rw [h] at hd
    intro r hr
    rcases List.mem_append.mp hr with hr | hr
    · exact hl r hr
    · rw [List.mem_singleton] at hr
      exact hr ▸ hgen prev d (hl prev (List.mem_of_getLast?_eq_some h)) hd

theorem loop_forall (P : Road → Prop) (h0 : P firstRoad)
    (hgen : ∀ prev d, P prev → DrawsInRange prev d → P (CreateRandomRoad prev d))
    (ds : Nat → Draws) (is : List Nat) (roadList : List Road)
    (hl : ∀ r ∈ roadList, P r) (hd : loopDrawsInRange ds is roadList) :
    ∀ r ∈ is.foldl (fun l i => CreateAddRandomizedRoadNodeToRoadList l (ds i)) roadList,
      P r := by
  induction is generalizing roadList with
  | nil => exact hl
  | cons i is ih =>
    rw [List.foldl_cons]
    exact ih _ (CreateAdd_forall P h0 hgen roadList (ds i) hl hd.1) hd.2

theorem UpdateRoadPositions_forall (P : Road → Prop) (h0 : P firstRoad)
    (hgen : ∀ prev d, P prev → DrawsInRange prev d → P (CreateRandomRoad prev d))
    (hmove : ∀ v t r, P r → P (moveRoad v t r))
    (roadList roadList' : List Road) (v t : ℚ) (d : Draws)
    (hl : ∀ r ∈ roadList, P r) (hd : updateDrawsInRange roadList d)
    (hu : UpdateRoadPositions roadList v t d = some roadList') : ∀ r ∈ roadList', P r := by
  have hmap : ∀ l : List Road, (∀ r ∈ l, P r) → ∀ r ∈ l.map (moveRoad v t), P r := by
    intro l hl r hr
    obtain ⟨r0, hr0, rfl⟩ := List.mem_map.mp hr
    exact hmove v t r0 (hl r0 hr0)
  match roadList, hl, hd, hu with
  | [], _, _, hu => simp [UpdateRoadPositions] at hu
  | [curr], hl, hd, hu =>
    unfold UpdateRoadPositions at hu
    by_cases hy : curr.topLeft.y ≥ (screenHeight : ℚ)
    · simp [hy, RemoveHeadRoadNodeFromRoadList] at hu
    · simp only [hy, if_false, Option.map_some', Option.some.injEq] at hu
      exact hu ▸ hmap _ hl
  | curr :: next :: rest, hl, hd, hu =>
    unfold UpdateRoadPositions at hu
    by_cases hy : curr.topLeft.y ≥ (screenHeight : ℚ)
    · simp only [hy, if_true, RemoveHeadRoadNodeFromRoadList, Option.map_some',
        Option.some.injEq] at hu
      have htail : ∀ r ∈ next :: rest, P r := fun r hr => hl r (List.mem_cons_of_mem _ hr)
      exact hu ▸ hmap _ (CreateAdd_forall P h0 hgen _ d htail (hd hy))
    · simp only [hy, if_false, Option.map_some', Option.some.injEq] at hu
      exact hu ▸ hmap _ hl

theorem reachable_forall (P : Road → Prop) (h0 : P firstRoad)
    (hgen : ∀ prev d, P prev → DrawsInRange prev d → P (CreateRandomRoad prev d))
    (hmove : ∀ v t r, P r → P (moveRoad v t r))
    {roadList : List Road} (h : Reachable roadList) : ∀ r ∈ roadList, P r := by
  induction h with
  | bootstrap ds hd =>
    exact loop_forall P h0 hgen ds _ [] (fun _ hr => absurd hr (List.not_mem_nil _)) hd
  | update l l' v t d _ hd hu ih =>
    exact UpdateRoadPositions_forall P h0 hgen hmove l l' v t d ih hd hu

theorem firstRoad_inScreen : firstRoad.inScreen :=
  ⟨440, 840, by rw [firstRoad_x.1]; norm_num, by rw [firstRoad_x.2]; norm_num,
    by norm_num, by norm_num, by norm_num, by norm_num⟩

theorem moveRoad_inScreen (v t : ℚ) (r : Road) (h : r.inScreen) : (moveRoad v t r).inScreen := h

theorem halfWidth_bounds (a b : Int) (hw : 200 ≤ b - a) :
    100 ≤ toInt (((b : ℚ) - a) / 2) ∧ 2 * toInt (((b : ℚ) - a) / 2) ≤ b - a := by
  have hq : (100 : ℚ) ≤ ((b : ℚ) - a) / 2 := by
    have : ((200 : Int) : ℚ) ≤ ((b - a : Int) : ℚ) := by exact_mod_cast hw
    push_cast at this
    linarith
  have h0 : (0 : ℚ) ≤ ((b : ℚ) - a) / 2 := by linarith
  rw [toInt_of_nonneg h0]
  refine ⟨Int.le_floor.mpr (by exact_mod_cast hq), ?_⟩
  have h1 := Int.floor_le (((b : ℚ) - a) / 2)
  have h2 : ((2 * ⌊((b : ℚ) - a) / 2⌋ : Int) : ℚ) ≤ ((b - a : Int) : ℚ) := by
    push_cast
    linarith
  exact_mod_cast h2

theorem shouldCreateRoadOnLeft_cases (prevRoad : Road) (side a b : Int)
    (ha : prevRoad.topLeft.x = a) (hb : prevRoad.topRight.x = b) :
    (shouldCreateRoadOnLeft prevRoad side ≠ 0 → 215 < a) ∧
    (shouldCreateRoadOnLeft prevRoad side = 0 → a ≤ 215 ∨ 215 < 1280 - b) := by
  have e : (MAX_ROAD_WIDTH : ℚ) - MIN_GAP_WIDTH = ((215 : Int) : ℚ) := by
    rw [MIN_GAP_WIDTH_eq]; norm_num [MAX_ROAD_WIDTH, CAR_WIDTH]
  have e2 : (screenWidth : ℚ) - (b : ℚ) = ((1280 - b : Int) : ℚ) := by
    norm_num [screenWidth]
  unfold shouldCreateRoadOnLeft
  rw [ha, hb, e, e2]
  simp only [Int.cast_le]
  split_ifs with h1 h2
  · exact ⟨fun h => absurd rfl h, fun _ => Or.inl h1⟩
  · exact ⟨fun _ => by omega, fun h => absurd h (by decide)⟩
  · exact ⟨fun _ => by omega, fun _ => Or.inr (by omega)⟩

theorem ranges_of_inScreen (prevRoad : Road) (a b : Int)
    (ha : prevRoad.topLeft.x = a) (hb : prevRoad.topRight.x = b) :
    leftRange prevRoad = (a + 85, a + toInt (((b : ℚ) - a) / 2)) ∧
    rightRange prevRoad = (a + toInt (((b : ℚ) - a) / 2), b - 85) := by
  have e1 : (a : ℚ) + 85 = ((a + 85 : Int) : ℚ) := by push_cast; ring
  have e2 : (b : ℚ) - 85 = ((b - 85 : Int) : ℚ) := by push_cast; ring
  have e3 : ∀ h : Int, (a : ℚ) + (h : ℚ) = ((a + h : Int) : ℚ) := fun h => by push_cast; ring
  unfold leftRange rightRange prevHalfWidth
  rw [ha, hb, MIN_GAP_WIDTH_eq, e1, e2, e3, toInt_intCast, toInt_intCast, toInt_intCast]
  exact ⟨rfl, rfl⟩

theorem CreateRandomRoad_inScreen (prevRoad : Road) (d : Draws) (hp : prevRoad.inScreen)
    (hd : DrawsInRange prevRoad d) : (CreateRandomRoad prevRoad d).inScreen := by
  obtain ⟨a, b, ha, hb, hw1, hw2, hl, hr⟩ := hp
  obtain ⟨⟨hd1, hd2⟩, -, hlo, hhi⟩ := hd
  have hd1' : (200 : Int) ≤ d.width := hd1
  have hd2' : d.width ≤ (300 : Int) := hd2
  obtain ⟨hh1, hh2⟩ := halfWidth_bounds a b hw1
  obtain ⟨hR1, hR2⟩ := ranges_of_inScreen prevRoad a b ha hb
  obtain ⟨hs1, hs2⟩ := shouldCreateRoadOnLeft_cases prevRoad d.side a b ha hb
  unfold posRange at hlo hhi
  unfold CreateRandomRoad CreateRoad Road.inScreen
  by_cases hs : shouldCreateRoadOnLeft prevRoad d.side ≠ 0
  · have h215 := hs1 hs
    simp only [hs, if_true, ne_eq, not_false_eq_true, hR1] at hlo hhi ⊢
    exact ⟨d.pos - d.width, d.pos, rfl, rfl, by omega, by omega, by omega, by omega⟩
  · have h0 := hs2 (not_not.mp hs)
    simp only [hs, if_false, hR2] at hlo hhi ⊢
    exact ⟨d.pos, d.pos + d.width, rfl, rfl, by omega, by omega, by omega, by omega⟩

theorem reachable_inScreen {roadList : List Road} (h : Reachable roadList) :
    ∀ r ∈ roadList, r.inScreen :=
  reachable_forall Road.inScreen firstRoad_inScreen CreateRandomRoad_inScreen
    moveRoad_inScreen h

/-! ## Bounds of the position draw -/

/-- Claim C12. For every road `prev` of a reachable list (the first road or a generated
one), the bounds passed to `GetRandomValue` for the position are well ordered in both
branches: `prev.topLeft.x + MIN_GAP_WIDTH <= prev.topLeft.x + prevHalfWidth` (left) and
`prev.topLeft.x + prevHalfWidth <= prev.topRight.x - MIN_GAP_WIDTH` (right), also after the
conversion of the arguments to `int`; so whichever side is taken, min > max never occurs. -/
theorem draw_bounds_ordered (roadList : List Road) (h : Reachable roadList) (prev : Road)
    (hp : prev ∈ roadList) :
    prev.topLeft.x + MIN_GAP_WIDTH ≤ prev.topLeft.x + (prevHalfWidth prev : ℚ) ∧
    prev.topLeft.x + (prevHalfWidth prev : ℚ) ≤ prev.topRight.x - MIN_GAP_WIDTH ∧
    (leftRange prev).1 ≤ (leftRange prev).2 ∧
    (rightRange prev).1 ≤ (rightRange prev).2 ∧
    ∀ side : Int, (posRange prev side).1 ≤ (posRange prev side).2 := by
  obtain ⟨a, b, ha, hb, hw1, -, -, -⟩ := reachable_inScreen h prev hp
  obtain ⟨hh1, hh2⟩ := halfWidth_bounds a b hw1
  obtain ⟨hR1, hR2⟩ := ranges_of_inScreen prev a b ha hb
  have hl : (leftRange prev).1 ≤ (leftRange prev).2 := by rw [hR1]; show a + 85 ≤ a + _; omega
  have hr : (rightRange prev).1 ≤ (rightRange prev).2 := by rw [hR2]; show a + _ ≤ b - 85; omega
  have hhalf : prevHalfWidth prev = toInt (((b : ℚ) - a) / 2) := by
    unfold prevHalfWidth; rw [ha, hb]
  have c1 : ((85 : Int) : ℚ) ≤ (toInt (((b : ℚ) - a) / 2) : ℚ) := by
    exact_mod_cast (by omega : (85 : Int) ≤ toInt (((b : ℚ) - a) / 2))
  have c2 : ((a + toInt (((b : ℚ) - a) / 2) : Int) : ℚ) ≤ ((b - 85 : Int) : ℚ) := by
    exact_mod_cast (by omega : a + toInt (((b : ℚ) - a) / 2) ≤ b - 85)
  push_cast at c1 c2
  refine ⟨?_, ?_, hl, hr, ?_⟩
  · rw [MIN_GAP_WIDTH_eq, hhalf]; linarith
  · rw [MIN_GAP_WIDTH_eq, hhalf, ha, hb]; exact c2
  · intro side
    unfold posRange
    split_ifs
    · exact hl
    · exact hr

/-- Witness for C12: the first road of the list bootstrapped with `zigzagDraws`. -/
theorem draw_bounds_ordered_witness :
    (leftRange firstRoad).1 ≤ (leftRange firstRoad).2 ∧
    (rightRange firstRoad).1 ≤ (rightRange firstRoad).2 :=
  have h := draw_bounds_ordered (initRoads [] zigzagDraws)
    (Reachable.bootstrap zigzagDraws zigzag_inRange) firstRoad
    (by rw [initRoads_nil]; exact List.mem_cons_self _ _)
  ⟨h.2.2.1, h.2.2.2.1⟩

/-! ## Monotone speed, and independence from the far road -/

theorem le_limitSpeed (v : ℚ) : v ≤ limitSpeed v := by
  unfold limitSpeed
  split_ifs
  · linarith
  · exact le_refl v

theorem UpdateGame_defined (g : Game) (inp : Input) (h : 2 ≤ g.roadList.length) :
    ∃ g', UpdateGame g inp = some g' := by
  unfold UpdateGame
  by_cases hp : g.isPaused = true
  · by_cases hk : inp.keySpace = true
    · simp only [hp, hk, if_true]; exact ⟨_, rfl⟩
    · simp only [hp, hk, if_true]; exact ⟨g, rfl⟩
  · obtain ⟨g1, hc, hr, -⟩ := CheckCarCollision_defined g inp.time h
    have hr2 := (UpdateCarPosition_frame g1 inp.keyA inp.keyD inp.frameTime).1
    obtain ⟨l', hu, -⟩ := UpdateRoadPositions_length
      (UpdateCarPosition g1 inp.keyA inp.keyD inp.frameTime).roadList
      (UpdateCarPosition g1 inp.keyA inp.keyD inp.frameTime).carSpeedVertical
      inp.frameTime (inp.draws 0) (by rw [hr2, hr]; exact h)
    simp only [hp, hc, Option.some_bind, hu, Option.map_some']
    exact ⟨_, rfl⟩

theorem UpdateGame_paused_idle (g : Game) (inp : Input) (hp : g.isPaused = true)
    (hk : inp.keySpace = false) : UpdateGame g inp = some g := by
  unfold UpdateGame
  simp only [hp, hk, if_true, Bool.false_eq_true, if_false]

theorem UpdateGame_speed_le (g g' : Game) (inp : Input)
    (hno : g.isPaused = false ∨ inp.keySpace = false) (hu : UpdateGame g inp = some g') :
    g.carSpeedVertical ≤ g'.carSpeedVertical := by
  by_cases hp : g.isPaused = true
  · rcases hno with h | hk
    · rw [hp] at h; exact absurd h (by decide)
    · rw [UpdateGame_paused_idle g inp hp hk, Option.some.injEq] at hu
      rw [← hu]
  · rw [UpdateGame_running_speed g g' inp (by simpa using hp) hu]
    exact le_limitSpeed _

theorem runGame_speed_le (inputs : List Input) :
    ∀ g g' : Game, (∀ inp ∈ inputs, inp.keySpace = false) → runGame g inputs = some g' →
      g.carSpeedVertical ≤ g'.carSpeedVertical := by
  induction inputs with
  | nil =>
    intro g g' _ h
    rw [runGame, Option.some.injEq] at h
    rw [h]
  | cons inp rest ih =>
    intro g g' hk h
    rw [runGame] at h
    cases hu : UpdateGame g inp with
    | none => rw [hu] at h; exact absurd h (by simp)
    | some g1 =>
      rw [hu, Option.some_bind] at h
      exact le_trans
        (UpdateGame_speed_le g g1 inp (Or.inr (hk inp (List.mem_cons_self _ _))) hu)
        (ih g1 g' (fun i hi => hk i (List.mem_cons_of_mem _ hi)) h)

/-- Claim C13. For every `UpdateGame` tick that does not perform a restart (the game is
Running, or it is Paused and the restart key is not pressed), `carSpeedVertical` after the
tick is at least `carSpeedVertical` before it; on a list of at least two roads such a tick
does return a state.  Hence over any run of ticks without the restart key the speed at the
end is at least the speed at the start. -/
theorem speed_monotone (g : Game) (inp : Input)
    (hno : g.isPaused = false ∨ inp.keySpace = false) :
    (∀ g', UpdateGame g inp = some g' → g.carSpeedVertical ≤ g'.carSpeedVertical) ∧
    (2 ≤ g.roadList.length →
      ∃ g', UpdateGame g inp = some g' ∧ g.carSpeedVertical ≤ g'.carSpeedVertical) ∧
    (∀ (inputs : List Input) (g' : Game), (∀ i ∈ inputs, i.keySpace = false) →
      runGame g inputs = some g' → g.carSpeedVertical ≤ g'.carSpeedVertical) := by
  refine ⟨fun g' hu => UpdateGame_speed_le g g' inp hno hu, ?_,
    fun inputs g' hk h => runGame_speed_le inputs g g' hk h⟩
  intro hlen
  obtain ⟨g', hu⟩ := UpdateGame_defined g inp hlen
  exact ⟨g', hu, UpdateGame_speed_le g g' inp hno hu⟩

/-- Witness for C13: one Running tick on the list bootstrapped with `zigzagDraws`. -/
theorem speed_monotone_witness :
    ∃ g', UpdateGame (gameAt 615 (initRoads [] zigzagDraws)) (idleInput 1) = some g' ∧
      (gameAt 615 (initRoads [] zigzagDraws)).carSpeedVertical ≤ g'.carSpeedVertical :=
  (speed_monotone (gameAt 615 (initRoads [] zigzagDraws)) (idleInput 1) (Or.inl rfl)).2.1
    (by rw [show (gameAt 615 (initRoads [] zigzagDraws)).roadList = initRoads [] zigzagDraws
          from rfl, initRoads_length]; decide)

/-- Claim C14. For every car x and near road with
`near.topLeft.y - TOLERANCE < screenHeight - CAR_HEIGHT`, the outcome of `CheckCarCollision`
(the pause flag and the score it leaves) is the same for any two far roads, and any two
tails of the list behind them. -/
theorem far_road_irrelevant (g : Game) (time : ℚ) (near far far' : Road)
    (rest rest' : List Road)
    (hB : near.topLeft.y - (COLLISION_TOLERANCE : ℚ) < ((screenHeight - CAR_HEIGHT : Int) : ℚ)) :
    (CheckCarCollision { g with roadList := near :: far :: rest } time).map
        (fun s => (s.isPaused, s.lastScore)) =
      (CheckCarCollision { g with roadList := near :: far' :: rest' } time).map
        (fun s => (s.isPaused, s.lastScore)) := by
  have hB' : ¬ (near.topLeft.y - (COLLISION_TOLERANCE : ℚ)
      ≥ ((screenHeight - CAR_HEIGHT : Int) : ℚ)) := not_le.mpr hB
  unfold CheckCarCollision
  simp only [hB', false_and, if_false]
  split_ifs <;> rfl

/-- Witness for C14: the near road top at height 0, the car inside the near road, and two
far roads of which one does not contain the car. -/
theorem far_road_irrelevant_witness :
    (CheckCarCollision (gameAt 150 [roadAt 100 300 0, roadAt 150 350 (-266)]) 0).map
        (fun s => (s.isPaused, s.lastScore)) =
      (CheckCarCollision (gameAt 150 [roadAt 100 300 0, roadAt 500 700 (-266)]) 0).map
        (fun s => (s.isPaused, s.lastScore)) :=
  far_road_irrelevant (gameAt 150 []) 0 (roadAt 100 300 0) (roadAt 150 350 (-266))
    (roadAt 500 700 (-266)) [] []
    (by norm_num [roadAt, COLLISION_TOLERANCE, screenHeight, CAR_HEIGHT])

/-! ## Order of recycling and scrolling -/

theorem specAdvance_eq (dt speed : ℚ) (roadList : List Road) :
    specAdvance dt speed roadList = roadList.map (moveRoad speed dt) := rfl

theorem UpdateRoadPositions_eq_recycle_then_advance (roadList : List Road) (dt speed : ℚ)
    (d : Draws) :
    UpdateRoadPositions roadList speed dt d =
      (specRecycleIfNeeded roadList d).map (specAdvance dt speed) := by
  match roadList with
  | [] => rfl
  | [x] =>
    unfold UpdateRoadPositions specRecycleIfNeeded
    by_cases hy : x.topLeft.y ≥ (screenHeight : ℚ)
    · simp [hy, RemoveHeadRoadNodeFromRoadList]
    · simp [hy, specAdvance_eq]
  | x :: y :: rest =>
    unfold UpdateRoadPositions specRecycleIfNeeded
    by_cases hy : x.topLeft.y ≥ (screenHeight : ℚ)
    · simp only [hy, if_true, RemoveHeadRoadNodeFromRoadList, Option.map_some',
        CreateAddRandomizedRoadNodeToRoadList]
      cases h : (y :: rest).getLast? with
      | none => simp at h
      | some back => simp [specAdvance_eq]
    · simp [hy, specAdvance_eq]

theorem UpdateRoadPositions_recycle (front next : Road) (rest : List Road) (v t : ℚ)
    (d : Draws) (hy : front.topLeft.y ≥ (screenHeight : ℚ)) :
    UpdateRoadPositions (front :: next :: rest) v t d =
      some (((next :: rest) ++
        [CreateRandomRoad ((next :: rest).getLast (List.cons_ne_nil _ _)) d]).map
          (moveRoad v t)) := by
  unfold UpdateRoadPositions
  simp only [hy, if_true, RemoveHeadRoadNodeFromRoadList, Option.map_some',
    CreateAddRandomizedRoadNodeToRoadList]
  rw [List.getLast?_eq_getLast _ (List.cons_ne_nil _ _)]

/-- Counterexample to C15: front road with top at 799, scrolled at speed 240 for 1/60 s
(4 pixels).  `UpdateRoadPositions` keeps it in front with its top at 803, at or past
`screenHeight`, not evicted in that tick; advance followed by recycleIfNeeded evicts it and
returns a list that starts with the second road. -/
theorem recycle_order_counterexample :
    UpdateRoadPositions [roadAt 100 300 799, roadAt 150 350 533] 240 (1 / 60)
        { width := 200, side := 0, pos := 250 }
      = some [roadAt 100 300 803, roadAt 150 350 537] ∧
    ((799 : ℚ) < (screenHeight : ℚ) ∧ (screenHeight : ℚ) ≤ 803) ∧
    specTick [roadAt 100 300 799, roadAt 150 350 533] (1 / 60) 240
        { width := 200, side := 0, pos := 250 }
      = some [roadAt 150 350 537,
          CreateRandomRoad (roadAt 150 350 537) { width := 200, side := 0, pos := 250 }] ∧
    UpdateRoadPositions [roadAt 100 300 799, roadAt 150 350 533] 240 (1 / 60)
        { width := 200, side := 0, pos := 250 }
      ≠ specTick [roadAt 100 300 799, roadAt 150 350 533] (1 / 60) 240
        { width := 200, side := 0, pos := 250 } := by
  have m1 : moveRoad 240 (1 / 60) (roadAt 100 300 799) = roadAt 100 300 803 := by
    simp only [moveRoad, roadAt]; norm_num
  have m2 : moveRoad 240 (1 / 60) (roadAt 150 350 533) = roadAt 150 350 537 := by
    simp only [moveRoad, roadAt]; norm_num
  have h1 : UpdateRoadPositions [roadAt 100 300 799, roadAt 150 350 533] 240 (1 / 60)
      { width := 200, side := 0, pos := 250 }
      = some [roadAt 100 300 803, roadAt 150 350 537] := by
    unfold UpdateRoadPositions
    have hy : ¬ ((roadAt 100 300 799).topLeft.y ≥ (screenHeight : ℚ)) := by
      norm_num [roadAt, screenHeight]
    simp only [hy, if_false, Option.map_some', List.map_cons, List.map_nil, m1, m2]
  have h2 : specTick [roadAt 100 300 799, roadAt 150 350 533] (1 / 60) 240
      { width := 200, side := 0, pos := 250 }
      = some [roadAt 150 350 537,
          CreateRandomRoad (roadAt 150 350 537) { width := 200, side := 0, pos := 250 }] := by
    unfold specTick
    rw [specAdvance_eq]
    simp only [List.map_cons, List.map_nil, m1, m2]
    unfold specRecycleIfNeeded
    have hy : (roadAt 100 300 803).topLeft.y ≥ (screenHeight : ℚ) := by
      norm_num [roadAt, screenHeight]
    simp only [hy, if_true, List.getLast?_singleton, List.singleton_append]
  refine ⟨h1, by norm_num [screenHeight], h2, ?_⟩
  rw [h1, h2]
  intro h
  have hx := congrArg (fun o : Option (List Road) =>
    o.map fun l => l.head?.map fun r => r.topLeft.x) h
  simp only [Option.map_some', List.head?_cons, roadAt, Option.some.injEq] at hx
  norm_num at hx

/-- Claim C15, amended. The per-tick scroll step `UpdateRoadPositions` equals
recycleIfNeeded followed by advance: for every list, dt and speed, it first checks the front
road at its position before this tick scrolls it and, if that topY is at least
`screenHeight`, evicts it and appends a new road; then it adds `speed * dt` to the topY of
every road.  So a front road whose topY reaches `screenHeight` during a tick is still in
front after that tick, and is evicted by the next tick. -/
theorem recycle_then_advance (roadList : List Road) (dt speed : ℚ) (d : Draws) :
    UpdateRoadPositions roadList speed dt d =
      (specRecycleIfNeeded roadList d).map (specAdvance dt speed) ∧
    (∀ (front next : Road) (rest : List Road), roadList = front :: next :: rest →
      front.topLeft.y < (screenHeight : ℚ) →
      (screenHeight : ℚ) ≤ front.topLeft.y + speed * dt →
      UpdateRoadPositions roadList speed dt d
        = some (moveRoad speed dt front :: (next :: rest).map (moveRoad speed dt)) ∧
      ∀ (dt2 speed2 : ℚ) (d2 : Draws), ∃ roadList2,
        UpdateRoadPositions (moveRoad speed dt front :: (next :: rest).map (moveRoad speed dt))
          speed2 dt2 d2 = some roadList2 ∧
        roadList2.head? = some (moveRoad speed2 dt2 (moveRoad speed dt next)) ∧
        roadList2.length = roadList.length) := by
  refine ⟨UpdateRoadPositions_eq_recycle_then_advance roadList dt speed d, ?_⟩
  intro front next rest hl hy1 hy2
  subst hl
  refine ⟨?_, ?_⟩
  · unfold UpdateRoadPositions
    simp only [ge_iff_le, not_le.mpr hy1, if_false, Option.map_some', List.map_cons]
  · intro dt2 speed2 d2
    have hy : (moveRoad speed dt front).topLeft.y ≥ (screenHeight : ℚ) := hy2
    rw [List.map_cons, UpdateRoadPositions_recycle _ _ _ speed2 dt2 d2 hy]
    refine ⟨_, rfl, ?_, ?_⟩
    · simp only [List.cons_append, List.map_cons, List.head?_cons]
    · simp only [List.length_map, List.length_append, List.length_cons, List.length_nil]

/-- Witness for C15 (amended): the two-road list whose front top is at 799, scrolled by 4;
the front road stays in front, with its top at 803. -/
theorem recycle_then_advance_witness :
    UpdateRoadPositions [roadAt 100 300 799, roadAt 150 350 533] 240 (1 / 60)
        { width := 200, side := 0, pos := 250 }
      = some (moveRoad 240 (1 / 60) (roadAt 100 300 799) ::
          [roadAt 150 350 533].map (moveRoad 240 (1 / 60))) :=
  ((recycle_then_advance [roadAt 100 300 799, roadAt 150 350 533] (1 / 60) 240
      { width := 200, side := 0, pos := 250 }).2
    (roadAt 100 300 799) (roadAt 150 350 533) [] rfl
    (by norm_num [roadAt, screenHeight]) (by norm_num [roadAt, screenHeight])).1

/-! ## Recycling, vertical placement, the paused tick -/

/-- Claim C16. For every list of at least 2 roads whose front road has
`topLeft.y >= screenHeight`, `UpdateRoadPositions` evicts exactly the front road and appends
exactly one road at the back, generated by `CreateRandomRoad` from the road that was at the
back before the step: the result is the old list without its first element followed by
`CreateRandomRoad` of the old last element, each road then scrolled by `moveRoad`, which
leaves x bounds and heights as they are; the length is unchanged. -/
theorem recycle_evicts_front (roadList : List Road) (front next : Road) (rest : List Road)
    (v t : ℚ) (d : Draws) (hl : roadList = front :: next :: rest)
    (hy : front.topLeft.y ≥ (screenHeight : ℚ)) :
    ∃ last, roadList.getLast? = some last ∧
      UpdateRoadPositions roadList v t d =
        some ((roadList.tail ++ [CreateRandomRoad last d]).map (moveRoad v t)) ∧
      ((roadList.tail ++ [CreateRandomRoad last d]).map (moveRoad v t)).length
        = roadList.length ∧
      ∀ r : Road, (moveRoad v t r).topLeft.x = r.topLeft.x ∧
        (moveRoad v t r).topRight.x = r.topRight.x ∧ (moveRoad v t r).height = r.height := by
  subst hl
  refine ⟨(next :: rest).getLast (List.cons_ne_nil _ _), ?_,
    UpdateRoadPositions_recycle front next rest v t d hy, ?_, fun r => ⟨rfl, rfl, rfl⟩⟩
  · rw [List.getLast?_cons_cons, List.getLast?_eq_getLast _ (List.cons_ne_nil _ _)]
  · simp only [List.tail_cons, List.length_map, List.length_append, List.length_cons,
      List.length_nil]

/-- Witness for C16: three roads, the front one with its top at 805. -/
theorem recycle_evicts_front_witness :
    ∃ last, [roadAt 100 300 805, roadAt 150 350 539, roadAt 100 300 273].getLast? = some last ∧
      UpdateRoadPositions [roadAt 100 300 805, roadAt 150 350 539, roadAt 100 300 273]
          240 (1 / 60) { width := 200, side := 0, pos := 200 } =
        some (([roadAt 100 300 805, roadAt 150 350 539, roadAt 100 300 273].tail ++
          [CreateRandomRoad last { width := 200, side := 0, pos := 200 }]).map
            (moveRoad 240 (1 / 60))) := by
  obtain ⟨last, h1, h2, -⟩ := recycle_evicts_front
    [roadAt 100 300 805, roadAt 150 350 539, roadAt 100 300 273]
    (roadAt 100 300 805) (roadAt 150 350 539) [roadAt 100 300 273] 240 (1 / 60)
    { width := 200, side := 0, pos := 200 } rfl (by norm_num [roadAt, screenHeight])
  exact ⟨last, h1, h2⟩

theorem CreateRandomRoad_y (prevRoad : Road) (d : Draws) :
    (CreateRandomRoad prevRoad d).topLeft.y = (toInt (prevRoad.topLeft.y - (roadHeight : ℚ)) : ℚ) ∧
    (CreateRandomRoad prevRoad d).topRight.y = (CreateRandomRoad prevRoad d).topLeft.y ∧
    (CreateRandomRoad prevRoad d).height = roadHeight :=
  ⟨rfl, rfl, rfl⟩

theorem toInt_neg_1591_half : toInt (-1591 / 2) = -795 := by
  have h : (-1591 / 2 : ℚ) = -(1591 / 2) := by norm_num
  rw [h, toInt_neg, toInt_of_nonneg (by norm_num)]
  have : ⌊(1591 / 2 : ℚ)⌋ = 795 := by
    rw [Int.floor_eq_iff]
    norm_num
  rw [this]

/-- Claim C17, evaluated at a failing input: previous road with x range 525 to 725 and
`topLeft.y = -529.5`, draws (200, 0, 640).  The claim gives the new road
`topLeft.y = -529.5 - 266 = -795.5`; `CreateRandomRoad` stores the difference in an `int`
and returns `topLeft.y = topRight.y = -795`, so the bottom edge of the new road, at
`-795 + 266 = -529`, is not the top edge `-529.5` of the previous road.  The height is
`roadHeight = 266` as claimed. -/
theorem CreateRandomRoad_y_truncated :
    (roadAt 525 725 (-1059 / 2)).topLeft.y - (roadHeight : ℚ) = -1591 / 2 ∧
    (CreateRandomRoad (roadAt 525 725 (-1059 / 2))
      { width := 200, side := 0, pos := 640 }).topLeft.y = -795 ∧
    (CreateRandomRoad (roadAt 525 725 (-1059 / 2))
      { width := 200, side := 0, pos := 640 }).topRight.y = -795 ∧
    (CreateRandomRoad (roadAt 525 725 (-1059 / 2))
      { width := 200, side := 0, pos := 640 }).topLeft.y
      ≠ (roadAt 525 725 (-1059 / 2)).topLeft.y - (roadHeight : ℚ) ∧
    (CreateRandomRoad (roadAt 525 725 (-1059 / 2))
      { width := 200, side := 0, pos := 640 }).height = 266 ∧
    (CreateRandomRoad (roadAt 525 725 (-1059 / 2))
      { width := 200, side := 0, pos := 640 }).topLeft.y + 266
      ≠ (roadAt 525 725 (-1059 / 2)).topLeft.y := by
  have hy : (roadAt 525 725 (-1059 / 2)).topLeft.y - (roadHeight : ℚ) = -1591 / 2 := by
    rw [roadHeight_eq]; norm_num [roadAt]
  have h1 : (CreateRandomRoad (roadAt 525 725 (-1059 / 2))
      { width := 200, side := 0, pos := 640 }).topLeft.y = -795 := by
    rw [(CreateRandomRoad_y _ _).1, hy, toInt_neg_1591_half]
    norm_num
  refine ⟨hy, h1, ?_, ?_, ?_, ?_⟩
  · rw [(CreateRandomRoad_y _ _).2.1, h1]
  · rw [h1, hy]; norm_num
  · rw [(CreateRandomRoad_y _ _).2.2, roadHeight_eq]
  · rw [h1]; norm_num [roadAt]

/-- Claim C18. When the game is Paused and the restart key is not pressed, an `UpdateGame`
tick returns the state it was given: car position, every road, the list length,
`carSpeedVertical`, `lastScore`, `highScore` and `isPaused` are all unchanged, for every
frame time and horizontal input. -/
theorem paused_tick_unchanged (g : Game) (inp : Input) (hp : g.isPaused = true)
    (hk : inp.keySpace = false) :
    UpdateGame g inp = some g :=
  UpdateGame_paused_idle g inp hp hk

/-- Witness for C18: a paused game with frozen score 12, the key A held. -/
theorem paused_tick_unchanged_witness :
    UpdateGame { gameAt 95 (initRoads [] zigzagDraws) with isPaused := true, lastScore := 12 }
        { idleInput 30 with keyA := true }
      = some { gameAt 95 (initRoads [] zigzagDraws) with isPaused := true, lastScore := 12 } :=
  paused_tick_unchanged
    { gameAt 95 (initRoads [] zigzagDraws) with isPaused := true, lastScore := 12 }
    { idleInput 30 with keyA := true } rfl rfl

/-! ## Roads stay inside the screen; safety after bootstrap -/

theorem clamp_threshold : (MAX_ROAD_WIDTH : ℚ) - MIN_GAP_WIDTH = 215 := by
  rw [MIN_GAP_WIDTH_eq]; norm_num [MAX_ROAD_WIDTH, CAR_WIDTH]

/-- Claim C19. Every road of every list reachable from bootstrap through any number of
`UpdateRoadPositions` calls, all draws within their requested ranges, lies strictly inside
the screen horizontally: `0 < topLeft.x` and `topRight.x < screenWidth` (1280).  The clamp
of `CreateRandomRoad` forces the right side when `prev.topLeft.x <= 215`, otherwise the left
side when `screenWidth - prev.topRight.x <= 215`, where
`215 = MAX_ROAD_WIDTH - MIN_GAP_WIDTH`. -/
theorem roads_inside_screen (roadList : List Road) (h : Reachable roadList) (r : Road)
    (hr : r ∈ roadList) :
    (0 < r.topLeft.x ∧ r.topRight.x < (screenWidth : ℚ)) ∧
    (screenWidth = 1280 ∧ (MAX_ROAD_WIDTH : ℚ) - MIN_GAP_WIDTH = 215) ∧
    (∀ (prev : Road) (side : Int), prev.topLeft.x ≤ 215 →
      shouldCreateRoadOnLeft prev side = 0) ∧
    (∀ (prev : Road) (side : Int), 215 < prev.topLeft.x →
      (screenWidth : ℚ) - prev.topRight.x ≤ 215 → shouldCreateRoadOnLeft prev side = 1) := by
  obtain ⟨a, b, ha, hb, -, -, hl, hr'⟩ := reachable_inScreen h r hr
  refine ⟨⟨?_, ?_⟩, ⟨rfl, clamp_threshold⟩, ?_, ?_⟩
  · rw [ha]; exact_mod_cast hl
  · rw [hb]
    have : ((b : Int) : ℚ) < ((1280 : Int) : ℚ) := by exact_mod_cast hr'
    simpa [screenWidth] using this
  · intro prev side hp
    unfold shouldCreateRoadOnLeft
    rw [clamp_threshold, if_pos hp]
  · intro prev side hp1 hp2
    unfold shouldCreateRoadOnLeft
    rw [clamp_threshold, if_neg (not_le.mpr hp1), if_pos hp2]

/-- Witness for C19: the third road of the list bootstrapped with `zigzagDraws`. -/
theorem roads_inside_screen_witness :
    0 < (bootRoad zigzagDraws 2).topLeft.x ∧
      (bootRoad zigzagDraws 2).topRight.x < (screenWidth : ℚ) :=
  (roads_inside_screen (initRoads [] zigzagDraws)
    (Reachable.bootstrap zigzagDraws zigzag_inRange) (bootRoad zigzagDraws 2)
    (by rw [initRoads_nil]; simp)).1

/-- Claim C20. Immediately after `InitGame` on an empty list the player is safe: the front
road is the first road, with x range `screenWidth/2 - MIN_ROAD_WIDTH = 440` to
`screenWidth/2 + MIN_ROAD_WIDTH = 840`, top at `screenHeight - 4 * roadHeight` and height
`4 * roadHeight`; the car is at x = 615, y = 750; the game is not paused; and
`CheckCarCollision` returns that state unchanged (no collision), whatever the draws that
produced the other five roads and whatever the clock. -/
theorem bootstrap_safe (g : Game) (time time2 : ℚ) (ds : Nat → Draws)
    (hg : g.roadList = []) :
    (InitGame g time ds).roadList.head? = some firstRoad ∧
    (InitGame g time ds).roadList.length = 6 ∧
    (firstRoad.topLeft.x = ((Int.tdiv screenWidth 2 - MIN_ROAD_WIDTH : Int) : ℚ) ∧
      firstRoad.topLeft.x = 440) ∧
    (firstRoad.topRight.x = ((Int.tdiv screenWidth 2 + MIN_ROAD_WIDTH : Int) : ℚ) ∧
      firstRoad.topRight.x = 840) ∧
    (firstRoad.topLeft.y = ((screenHeight - 4 * roadHeight : Int) : ℚ) ∧
      firstRoad.topRight.y = firstRoad.topLeft.y) ∧
    firstRoad.height = 4 * roadHeight ∧
    (InitGame g time ds).car.pos = { x := 615, y := 750 } ∧
    (InitGame g time ds).isPaused = false ∧
    CheckCarCollision (InitGame g time ds) time2 = some (InitGame g time ds) := by
  have hlist : (InitGame g time ds).roadList =
      firstRoad :: bootRoad ds 1 :: [bootRoad ds 2, bootRoad ds 3, bootRoad ds 4,
        bootRoad ds 5] := by
    rw [InitGame_roadList, hg, initRoads_nil]; rfl
  have hcar := InitGame_car g time ds
  obtain ⟨hc1, hc2, hc3⟩ := collision_consts
  refine ⟨by rw [hlist]; rfl, by rw [hlist]; rfl, ⟨rfl, firstRoad_x.1⟩, ⟨rfl, firstRoad_x.2⟩,
    ⟨?_, rfl⟩, ?_, hcar, rfl, ?_⟩
  · show ((screenHeight - roadHeight * 4 : Int) : ℚ) = ((screenHeight - 4 * roadHeight : Int) : ℚ)
    rw [mul_comm]
  · show roadHeight * 4 = 4 * roadHeight
    rw [mul_comm]
  · refine CheckCarCollision_clear _ time2 firstRoad (bootRoad ds 1) _ hlist ?_ ?_
    · rw [hcar, firstRoad_x.1, firstRoad_x.2, hc1, hc2]
      norm_num
    · rw [hc1, hc3, firstRoad_eq]
      norm_num

/-- Witness for C20: bootstrap with `zigzagDraws` at clock value 0. -/
theorem bootstrap_safe_witness :
    CheckCarCollision (InitGame (gameAt 0 []) 0 zigzagDraws) 1
      = some (InitGame (gameAt 0 []) 0 zigzagDraws) :=
  (bootstrap_safe (gameAt 0 []) 0 1 zigzagDraws rfl).2.2.2.2.2.2.2.2

/-! ## Rounding to a binary floating-point format -/

theorem roundEven_intCast (k : Int) : roundEven (k : ℚ) = k := by
  unfold roundEven
  rw [Int.floor_intCast]
  norm_num

theorem roundEven_bounds (x : ℚ) : ⌊x⌋ ≤ roundEven x ∧ roundEven x ≤ ⌊x⌋ + 1 := by
  unfold roundEven
  split_ifs <;> constructor <;> omega

theorem roundEven_mono {x y : ℚ} (h : x ≤ y) : roundEven x ≤ roundEven y := by
  have hf : ⌊x⌋ ≤ ⌊y⌋ := Int.floor_mono h
  rcases lt_or_eq_of_le hf with hlt | heq
  · exact le_trans (roundEven_bounds x).2 (le_trans hlt (roundEven_bounds y).1)
  · unfold roundEven
    rw [← heq]
    have hxy : x - (⌊x⌋ : ℚ) ≤ y - (⌊x⌋ : ℚ) := by linarith
    split_ifs <;> first | omega | (exfalso; linarith)

theorem roundEven_neg (x : ℚ) : roundEven (-x) = -roundEven x := by
  by_cases hx : (⌊x⌋ : ℚ) = x
  · rw [← hx, ← Int.cast_neg, roundEven_intCast, roundEven_intCast]
  · have hlt : (⌊x⌋ : ℚ) < x := lt_of_le_of_ne (Int.floor_le x) hx
    have hfl : ⌊-x⌋ = -⌊x⌋ - 1 := by
      rw [Int.floor_eq_iff]
      have := Int.lt_floor_add_one x
      push_cast
      constructor <;> linarith
    unfold roundEven
    rw [hfl]
    push_cast
    split_ifs <;> first | omega | (exfalso; linarith)

theorem roundFloat_neg (p : Nat) (emin : Int) (q : ℚ) :
    roundFloat p emin (-q) = -roundFloat p emin q := by
  unfold roundFloat
  rw [abs_neg, neg_div, roundEven_neg]
  push_cast
  ring

theorem roundFloat_nonneg (p : Nat) (emin : Int) {q : ℚ} (hq : 0 ≤ q) :
    0 ≤ roundFloat p emin q := by
  unfold roundFloat
  have hu : (0 : ℚ) < 2 ^ (max (Int.log 2 |q|) emin - ((p : Int) - 1)) := by positivity
  have : (0 : Int) ≤ roundEven (q / 2 ^ (max (Int.log 2 |q|) emin - ((p : Int) - 1))) := by
    have h := roundEven_mono (div_nonneg hq hu.le)
    have h0 := roundEven_intCast 0
    simp only [Int.cast_zero] at h0
    rw [h0] at h
    exact h
  exact mul_nonneg (by exact_mod_cast this) hu.le

theorem roundFloat_mono_pos (p : Nat) (hp : 1 ≤ p) (emin : Int) {x y : ℚ} (hx : 0 < x)
    (h : x ≤ y) : roundFloat p emin x ≤ roundFloat p emin y := by
  have hy : 0 < y := lt_of_lt_of_le hx h
  have hlog : Int.log 2 x ≤ Int.log 2 y := Int.log_mono_right hx h
  unfold roundFloat
  rw [abs_of_pos hx, abs_of_pos hy]
  set ex := max (Int.log 2 x) emin with hex
  set ey := max (Int.log 2 y) emin with hey
  have hexy : ex ≤ ey := max_le_max hlog le_rfl
  rcases lt_or_eq_of_le hexy with hlt | heq
  · -- different binades
    have hux : (0 : ℚ) < 2 ^ (ex - ((p : Int) - 1)) := by positivity
    have huy : (0 : ℚ) < 2 ^ (ey - ((p : Int) - 1)) := by positivity
    -- upper bound for x
    have hx1 : x < 2 ^ (ex + 1) := by
      have h1 : x < ((2 : Nat) : ℚ) ^ (Int.log 2 x + 1) := Int.lt_zpow_succ_log_self (by norm_num) x
      have h2 : ((2 : Nat) : ℚ) ^ (Int.log 2 x + 1) ≤ ((2 : Nat) : ℚ) ^ (ex + 1) :=
        zpow_le_zpow_right₀ (by norm_num) (by have := le_max_left (Int.log 2 x) emin; omega)
      have := lt_of_lt_of_le h1 h2
      simpa using this
    have hxq : x / 2 ^ (ex - ((p : Int) - 1)) ≤ ((2 ^ p : Int) : ℚ) := by
      rw [div_le_iff₀ hux]
      have : ((2 ^ p : Int) : ℚ) * 2 ^ (ex - ((p : Int) - 1)) = 2 ^ (ex + 1) := by
        push_cast
        rw [← zpow_natCast, ← zpow_add₀ (by norm_num)]
        congr 1
        ring
      rw [this]
      exact hx1.le
    have hrx : roundEven (x / 2 ^ (ex - ((p : Int) - 1))) ≤ 2 ^ p := by
      have := roundEven_mono hxq
      rwa [roundEven_intCast] at this
    -- lower bound for y
    have hey' : ey = Int.log 2 y := by
      have : emin ≤ ex := le_max_right _ _
      rw [hey]
      exact max_eq_left (by omega)
    have hy1 : (2 : ℚ) ^ ey ≤ y := by
      rw [hey']
      have := Int.zpow_log_le_self (R := ℚ) (b := 2) (by norm_num) hy
      simpa using this
    have hyq : ((2 ^ (p - 1) : Int) : ℚ) ≤ y / 2 ^ (ey - ((p : Int) - 1)) := by
      rw [le_div_iff₀ huy]
      have : ((2 ^ (p - 1) : Int) : ℚ) * 2 ^ (ey - ((p : Int) - 1)) = 2 ^ ey := by
        push_cast
        rw [← zpow_natCast, ← zpow_add₀ (by norm_num)]
        congr 1
        have : ((p - 1 : Nat) : Int) = (p : Int) - 1 := by omega
        rw [this]
        ring
      rw [this]
      exact hy1
    have hry : 2 ^ (p - 1) ≤ roundEven (y / 2 ^ (ey - ((p : Int) - 1))) := by
      have := roundEven_mono hyq
      rwa [roundEven_intCast] at this
    calc (roundEven (x / 2 ^ (ex - ((p : Int) - 1))) : ℚ) * 2 ^ (ex - ((p : Int) - 1))
        ≤ ((2 ^ p : Int) : ℚ) * 2 ^ (ex - ((p : Int) - 1)) :=
          mul_le_mul_of_nonneg_right (by exact_mod_cast hrx) hux.le
      _ = 2 ^ (ex + 1) := by
          push_cast
          rw [← zpow_natCast, ← zpow_add₀ (by norm_num)]
          congr 1
          ring
      _ ≤ 2 ^ ey := zpow_le_zpow_right₀ (by norm_num) (by omega)
      _ = ((2 ^ (p - 1) : Int) : ℚ) * 2 ^ (ey - ((p : Int) - 1)) := by
          push_cast
          rw [← zpow_natCast, ← zpow_add₀ (by norm_num)]
          congr 1
          have : ((p - 1 : Nat) : Int) = (p : Int) - 1 := by omega
          rw [this]
          ring
      _ ≤ (roundEven (y / 2 ^ (ey - ((p : Int) - 1))) : ℚ) * 2 ^ (ey - ((p : Int) - 1)) :=
          mul_le_mul_of_nonneg_right (by exact_mod_cast hry) huy.le
  · rw [← heq]
    have hux : (0 : ℚ) < 2 ^ (ex - ((p : Int) - 1)) := by positivity
    exact mul_le_mul_of_nonneg_right
      (by exact_mod_cast roundEven_mono (div_le_div_of_nonneg_right h hux.le)) hux.le

theorem roundFloat_mono (p : Nat) (hp : 1 ≤ p) (emin : Int) {x y : ℚ} (h : x ≤ y) :
    roundFloat p emin x ≤ roundFloat p emin y := by
  rcases lt_trichotomy 0 x with hx | hx | hx
  · exact roundFloat_mono_pos p hp emin hx h
  · subst hx
    have h0 : roundFloat p emin 0 = 0 := by
      unfold roundFloat
      have h := roundEven_intCast 0
      simp only [Int.cast_zero] at h
      simp [h]
    rw [h0]
    exact roundFloat_nonneg p emin h
  · rcases le_or_lt 0 y with hy | hy
    · have h1 := roundFloat_nonneg p emin (neg_nonneg.mpr hx.le)
      rw [roundFloat_neg] at h1
      exact le_trans (by linarith) (roundFloat_nonneg p emin hy)
    · have h1 := roundFloat_mono_pos p hp emin (neg_pos.mpr hy) (neg_le_neg h)
      rw [roundFloat_neg, roundFloat_neg] at h1
      linarith

theorem f32_mono {x y : ℚ} (h : x ≤ y) : f32 x ≤ f32 y :=
  roundFloat_mono 24 (by norm_num) (-126) h

theorem f32_intCast (n : Int) (hn : |n| < 2 ^ 24) : f32 (n : ℚ) = n := by
  unfold f32 roundFloat
  by_cases h0 : n = 0
  · subst h0
    have h := roundEven_intCast 0
    simp only [Int.cast_zero] at h
    simp [h]
  · have hpos : (0 : ℚ) < |(n : ℚ)| := abs_pos.mpr (by exact_mod_cast h0)
    have h1 : (1 : ℚ) ≤ |(n : ℚ)| := by
      have : (1 : Int) ≤ |n| := Int.one_le_abs h0
      exact_mod_cast this
    have hlo : (0 : Int) ≤ Int.log 2 |(n : ℚ)| := by
      rw [← Int.zpow_le_iff_le_log (by norm_num) hpos]
      simpa using h1
    have hhi : Int.log 2 |(n : ℚ)| < 24 := by
      rw [← Int.lt_zpow_iff_log_lt (by norm_num) hpos]
      have h : |(n : ℚ)| < 16777216 := by
        have : ((|n| : Int) : ℚ) < ((16777216 : Int) : ℚ) := by exact_mod_cast hn
        simpa using this
      norm_num
      exact h
    rw [max_eq_left (by omega)]
    obtain ⟨k, hk⟩ : ∃ k : Nat, Int.log 2 |(n : ℚ)| = 23 - (k : Int) :=
      ⟨(23 - Int.log 2 |(n : ℚ)|).toNat, by omega⟩
    rw [hk]
    have e : ((23 : Int) - (k : Int) - (((24 : Nat) : Int) - 1)) = -(k : Int) := by
      push_cast; ring
    rw [e, zpow_neg, zpow_natCast, div_inv_eq_mul]
    have : (n : ℚ) * 2 ^ k = ((n * 2 ^ k : Int) : ℚ) := by push_cast; ring
    rw [this, roundEven_intCast]
    push_cast
    field_simp

theorem MIN_GAP_WIDTH_double : f64 ((CAR_WIDTH : ℚ) * f64 (17 / 10)) = MIN_GAP_WIDTH := by
  have h : f64 (50 * f64 (17 / 10)) = 85 := by decide!
  have hc : (CAR_WIDTH : ℚ) = 50 := by norm_num [CAR_WIDTH]
  rw [MIN_GAP_WIDTH_eq, hc, h]

/-! ## Collision test and scroll step as computed in binary32 -/

theorem CheckCarCollisionF32_ruleA (g : Game) (time : ℚ) (near far : Road) (rest : List Road)
    (hl : g.roadList = near :: far :: rest)
    (hA : g.car.pos.x ≤ f32 (near.topLeft.x - (COLLISION_TOLERANCE : ℚ)) ∨
      f32 (g.car.pos.x + (CAR_WIDTH : ℚ)) ≥ f32 (near.topRight.x + (COLLISION_TOLERANCE : ℚ))) :
    CheckCarCollisionF32 g time = some (collideF32 g time) := by
  unfold CheckCarCollisionF32
  rw [hl]
  simp only [hA, if_true]

theorem CheckCarCollisionF32_clear (g : Game) (time : ℚ) (near far : Road) (rest : List Road)
    (hl : g.roadList = near :: far :: rest)
    (hA : ¬ (g.car.pos.x ≤ f32 (near.topLeft.x - (COLLISION_TOLERANCE : ℚ)) ∨
      f32 (g.car.pos.x + (CAR_WIDTH : ℚ)) ≥ f32 (near.topRight.x + (COLLISION_TOLERANCE : ℚ))))
    (hB : ¬ (f32 (near.topLeft.y - (COLLISION_TOLERANCE : ℚ))
      ≥ ((screenHeight - CAR_HEIGHT : Int) : ℚ))) :
    CheckCarCollisionF32 g time = some g := by
  unfold CheckCarCollisionF32
  rw [hl]
  simp only [hA, hB, false_and, if_false]

theorem f32_of_eq_intCast (q : ℚ) (n : Int) (h : q = n) (hn : |n| < 2 ^ 24) : f32 q = n := by
  rw [h]
  exact f32_intCast n hn

/-- Counterexample to C5, on a near road with x range 100 to 300 and top at height 0 (Rule B
not in force).  With the car at x = 95 its extent 95 to 145 lies within the closed interval
95 to 305, the left edge exactly on the endpoint, and `CheckCarCollision` sets `isPaused`.
With the car at x = 255 - 2^-16, a binary32 value, the extent lies strictly inside that
interval, the sum `car.x + CAR_WIDTH` rounds to 305, and `isPaused` is set as well. -/
theorem closed_interval_counterexample :
    ((100 : ℚ) - 5 ≤ 95 ∧ (95 : ℚ) + 50 ≤ 300 + 5 ∧ (0 : ℚ) - 5 < 800 - 50) ∧
    (gameAt 95 [roadAt 100 300 0, roadAt 150 350 (-266)]).isPaused = false ∧
    (CheckCarCollisionF32 (gameAt 95 [roadAt 100 300 0, roadAt 150 350 (-266)]) 0).map
      Game.isPaused = some true ∧
    ((100 : ℚ) - 5 < 255 - 1 / 2 ^ 16 ∧ (255 : ℚ) - 1 / 2 ^ 16 + 50 < 300 + 5) ∧
    (f32 (255 - 1 / 2 ^ 16) = 255 - 1 / 2 ^ 16 ∧ f32 (255 - 1 / 2 ^ 16 + 50) = 305) ∧
    (CheckCarCollisionF32
        (gameAt (255 - 1 / 2 ^ 16) [roadAt 100 300 0, roadAt 150 350 (-266)]) 0).map
      Game.isPaused = some true := by
  refine ⟨by norm_num, rfl, by decide!, by norm_num, ⟨by decide!, by decide!⟩, by decide!⟩

/-- Claim C5, amended. Every sum and difference being rounded to binary32 as the code
computes it: when the Rule-B condition does not hold
(`f32 (near.topLeft.y - TOLERANCE) < screenHeight - CAR_HEIGHT`), if
`f32 (near.topLeft.x - TOLERANCE) < car.x` and
`f32 (car.x + CAR_WIDTH) < f32 (near.topRight.x + TOLERANCE)` then `CheckCarCollision` leaves
the state unchanged (no collision); if `car.x <= f32 (near.topLeft.x - TOLERANCE)` or
`f32 (near.topRight.x + TOLERANCE) <= f32 (car.x + CAR_WIDTH)`, an edge of the car being on
an endpoint, beyond it or rounded onto it, a collision is reported.  An extent that passes
the computed test lies strictly inside the interval between the computed endpoints, and for
whole-number bounds the computed endpoints are the exact ones.  `TOLERANCE = 5`,
`CAR_WIDTH = 50`. -/
theorem no_collision_inside_as_computed (g : Game) (time : ℚ) (near far : Road)
    (rest : List Road) (hl : g.roadList = near :: far :: rest)
    (hB : f32 (near.topLeft.y - (COLLISION_TOLERANCE : ℚ))
      < ((screenHeight - CAR_HEIGHT : Int) : ℚ)) :
    (f32 (near.topLeft.x - (COLLISION_TOLERANCE : ℚ)) < g.car.pos.x ∧
        f32 (g.car.pos.x + (CAR_WIDTH : ℚ)) < f32 (near.topRight.x + (COLLISION_TOLERANCE : ℚ)) →
      CheckCarCollisionF32 g time = some g) ∧
    (g.car.pos.x ≤ f32 (near.topLeft.x - (COLLISION_TOLERANCE : ℚ)) ∨
        f32 (near.topRight.x + (COLLISION_TOLERANCE : ℚ)) ≤ f32 (g.car.pos.x + (CAR_WIDTH : ℚ)) →
      CheckCarCollisionF32 g time = some (collideF32 g time) ∧
        (collideF32 g time).isPaused = true) ∧
    (f32 (g.car.pos.x + (CAR_WIDTH : ℚ)) < f32 (near.topRight.x + (COLLISION_TOLERANCE : ℚ)) →
      g.car.pos.x + (CAR_WIDTH : ℚ) < near.topRight.x + (COLLISION_TOLERANCE : ℚ)) ∧
    (∀ a b : Int, near.topLeft.x = a → near.topRight.x = b → |a - 5| < 2 ^ 24 →
      |b + 5| < 2 ^ 24 →
      f32 (near.topLeft.x - (COLLISION_TOLERANCE : ℚ)) = (a : ℚ) - 5 ∧
        f32 (near.topRight.x + (COLLISION_TOLERANCE : ℚ)) = (b : ℚ) + 5) ∧
    (COLLISION_TOLERANCE : ℚ) = 5 ∧ (CAR_WIDTH : ℚ) = 50 ∧
    ((screenHeight - CAR_HEIGHT : Int) : ℚ) = 750 := by
  refine ⟨?_, ?_, ?_, ?_, collision_consts⟩
  · rintro ⟨h1, h2⟩
    refine CheckCarCollisionF32_clear g time near far rest hl ?_ (not_le.mpr hB)
    rintro (h | h)
    · exact absurd h (not_le.mpr h1)
    · exact absurd h (not_le.mpr h2)
  · intro h
    exact ⟨CheckCarCollisionF32_ruleA g time near far rest hl h, rfl⟩
  · intro h
    by_contra hc
    exact absurd (f32_mono (not_lt.mp hc)) (not_le.mpr h)
  · intro a b ha hb ha5 hb5
    have e1 : near.topLeft.x - (COLLISION_TOLERANCE : ℚ) = ((a - 5 : Int) : ℚ) := by
      rw [ha, collision_consts.1]; push_cast; ring
    have e2 : near.topRight.x + (COLLISION_TOLERANCE : ℚ) = ((b + 5 : Int) : ℚ) := by
      rw [hb, collision_consts.1]; push_cast; ring
    rw [e1, e2, f32_intCast _ ha5, f32_intCast _ hb5]
    push_cast
    exact ⟨rfl, rfl⟩

/-- Witness for C5 (amended): the car at x = 150 between the walls of a road with x range
100 to 300 whose top is at height 0. -/
theorem no_collision_inside_as_computed_witness :
    CheckCarCollisionF32 (gameAt 150 [roadAt 100 300 0, roadAt 150 350 (-266)]) 0
      = some (gameAt 150 [roadAt 100 300 0, roadAt 150 350 (-266)]) :=
  (no_collision_inside_as_computed (gameAt 150 [roadAt 100 300 0, roadAt 150 350 (-266)]) 0
    (roadAt 100 300 0) (roadAt 150 350 (-266)) [] rfl
    (by
      rw [f32_of_eq_intCast _ (-5) (by norm_num [roadAt, COLLISION_TOLERANCE]) (by decide)]
      norm_num [screenHeight, CAR_HEIGHT])).1
    ⟨by
      rw [f32_of_eq_intCast _ 95 (by norm_num [roadAt, COLLISION_TOLERANCE]) (by decide)]
      norm_num [gameAt],
     by
      rw [f32_of_eq_intCast _ 200 (by norm_num [gameAt, CAR_WIDTH]) (by decide),
        f32_of_eq_intCast _ 305 (by norm_num [roadAt, COLLISION_TOLERANCE]) (by decide)]
      norm_num⟩

theorem moveRoadF32_fields (v t : ℚ) (r : Road) :
    (moveRoadF32 v t r).topLeft.x = r.topLeft.x ∧
    (moveRoadF32 v t r).topRight.x = r.topRight.x ∧
    (moveRoadF32 v t r).height = r.height ∧
    (moveRoadF32 v t r).topLeft.y = f32 (r.topLeft.y + f32 (v * t)) ∧
    (moveRoadF32 v t r).topRight.y = f32 (r.topRight.y + f32 (v * t)) :=
  ⟨rfl, rfl, rfl, rfl, rfl⟩

theorem UpdateRoadPositionsF32_no_recycle (curr : Road) (rest : List Road) (v t : ℚ)
    (d : Draws) (hy : curr.topLeft.y < (screenHeight : ℚ)) :
    UpdateRoadPositionsF32 (curr :: rest) v t d
      = some ((curr :: rest).map (moveRoadF32 v t)) := by
  unfold UpdateRoadPositionsF32
  simp only [ge_iff_le, not_le.mpr hy, if_false, Option.map_some']

/-- Counterexample to C11: the bootstrapped list (front top at -264), speed 240 and the
binary32 frame time nearest to 1/60 s.  `carSpeedVertical * dt` is 4 + 112/2^29; the code
adds its binary32 rounding 4, so the front road stays in front with its top at -260, which
is not `-264 + carSpeedVertical * dt`. -/
theorem scroll_exact_counterexample :
    (firstRoad.topLeft.y = -264 ∧ firstRoad.topLeft.y < (screenHeight : ℚ)) ∧
    (initRoads [] zigzagDraws).head? = some firstRoad ∧
    f32 (8947849 / 536870912) = 8947849 / 536870912 ∧
    (240 : ℚ) * (8947849 / 536870912) = 4 + 112 / 2 ^ 29 ∧
    (∃ roadList', UpdateRoadPositionsF32 (initRoads [] zigzagDraws) 240
        (8947849 / 536870912) (zigzagDraws 0) = some roadList' ∧
      roadList'.head?.map (fun r => r.topLeft.y) = some (-260)) ∧
    (-260 : ℚ) ≠ -264 + 240 * (8947849 / 536870912) := by
  have hy : firstRoad.topLeft.y = -264 := by rw [firstRoad_eq]
  have hlt : firstRoad.topLeft.y < (screenHeight : ℚ) := by
    rw [hy]; norm_num [screenHeight]
  have hp : f32 (240 * (8947849 / 536870912)) = 4 := by decide!
  refine ⟨⟨hy, hlt⟩, by rw [initRoads_nil]; rfl, by decide!, by norm_num, ?_, by norm_num⟩
  rw [initRoads_nil]
  refine ⟨_, UpdateRoadPositionsF32_no_recycle _ _ 240 (8947849 / 536870912) (zigzagDraws 0)
    hlt, ?_⟩
  show some (f32 (firstRoad.topLeft.y + f32 (240 * (8947849 / 536870912)))) = some (-260)
  rw [hp, hy, f32_of_eq_intCast _ (-260) (by norm_num) (by decide)]
  norm_num

/-- Claim C11, amended. For every list whose front road has `topLeft.y < screenHeight`
(800), `UpdateRoadPositions` evicts and appends nothing: it returns the same roads in the
same order (same length, same position `i` for each road) with unchanged x bounds and
heights, `topLeft.y` and `topRight.y` of each road replaced by
`f32 (y + f32 (carSpeedVertical * dt))`, the product and then the sum rounded to binary32.
The increase is exactly `carSpeedVertical * dt` when that product and that sum are binary32
values. -/
theorem no_recycle_scroll_as_computed (roadList : List Road) (curr : Road) (rest : List Road)
    (v t : ℚ) (d : Draws) (hl : roadList = curr :: rest)
    (hy : curr.topLeft.y < (screenHeight : ℚ)) :
    UpdateRoadPositionsF32 roadList v t d = some (roadList.map (moveRoadF32 v t)) ∧
    (roadList.map (moveRoadF32 v t)).length = roadList.length ∧
    (∀ (i : Nat) (r : Road), roadList[i]? = some r →
      ∃ r', (roadList.map (moveRoadF32 v t))[i]? = some r' ∧
        r'.topLeft.x = r.topLeft.x ∧ r'.topRight.x = r.topRight.x ∧ r'.height = r.height ∧
        r'.topLeft.y = f32 (r.topLeft.y + f32 (v * t)) ∧
        r'.topRight.y = f32 (r.topRight.y + f32 (v * t)) ∧
        (f32 (v * t) = v * t → f32 (r.topLeft.y + v * t) = r.topLeft.y + v * t →
          r'.topLeft.y = r.topLeft.y + v * t)) ∧
    screenHeight = 800 := by
  subst hl
  refine ⟨?_, List.length_map _ _, ?_, rfl⟩
  · exact UpdateRoadPositionsF32_no_recycle curr rest v t d hy
  · intro i r hr
    obtain ⟨h1, h2, h3, h4, h5⟩ := moveRoadF32_fields v t r
    refine ⟨moveRoadF32 v t r, ?_, h1, h2, h3, h4, h5, ?_⟩
    · rw [List.getElem?_map, hr]
      rfl
    · intro e1 e2
      rw [h4, e1, e2]

/-- Witness for C11 (amended): two roads with the front top at height 0, scrolled at speed
240 for the binary32 frame time nearest to 1/60 s. -/
theorem no_recycle_scroll_as_computed_witness :
    UpdateRoadPositionsF32 [roadAt 100 300 0, roadAt 150 350 (-266)] 240
        (8947849 / 536870912) (zigzagDraws 0)
      = some ([roadAt 100 300 0, roadAt 150 350 (-266)].map
          (moveRoadF32 240 (8947849 / 536870912))) :=
  (no_recycle_scroll_as_computed [roadAt 100 300 0, roadAt 150 350 (-266)] (roadAt 100 300 0)
    [roadAt 150 350 (-266)] 240 (8947849 / 536870912) (zigzagDraws 0) rfl
    (by norm_num [roadAt, screenHeight])).1

end LaneRacer
